import Mathlib

/-!
# EchoBridge — verification of the Meeting Orchestrator and its collaborators

A shallow embedding of the parts of `backend/` that the checked properties
concern:

* `services/orchestrator_service.py` — `MeetingOrchestrator` (message log,
  mention priority, turn scheduling, pass accounting, external turn protocol,
  finalizer, global registry);
* `services/auth_service.py` — credential verification and scope enforcement;
* `main.py` — `register_agent` (agent self-registration / credential minting);
* `routers/agent.py` — `agent_meeting_respond` and the `session.complete`
  insert in `agent_analyze`.

Conventions of the embedding:

* Python dicts become structures; nondeterministic fields (`uuid4` ids,
  timestamps, random token bodies) are passed in as explicit parameters.
* Database writes and WebSocket broadcasts become `Eff` trace events; the
  trace order of events is the execution order of the corresponding
  `await db.execute(...)` / `await stream_manager.broadcast(...)` calls.
* The scheduler loop (`_run_loop`) is a fuel-indexed recursion (fuel
  `max_rounds` bounds the `while current_round < max_rounds` loop).
  External handler calls that can interleave with the loop at its await
  points (`add_directive`, `add_human_message`, `add_agent`, `stop`) are
  modelled by a schedule of operation batches applied at the await point at
  the start of each turn.  `pause`/`resume` are modelled as the standalone
  state transformers they are in the source; schedules in the loop theorems
  do not pause, matching runs in which the pause event stays set.
* AI calls and external-agent futures are resolved by an `Env` oracle
  indexed by a global turn counter: `ai k` is the result of `call_ai` on
  turn `k` (`Except.error e` = the call raised `e`), `ext k` is the outcome
  of `asyncio.wait_for(future, timeout=30.0)` (`none` = `TimeoutError`).
* Machine integers are `Nat` with explicit `% 2 ^ 32` where the Python
  code relies on 32-bit wrap-around (the SHA-256 model).
-/

namespace EchoBridge

/-! ### Python string primitives

Python strings index by code points, so `str.strip()`, slicing,
`str.startswith` and `str.split` are modelled character-wise over
`String.data` (structural definitions, so they evaluate inside proofs). -/

/-- `str.strip()` (no argument): remove leading and trailing whitespace. -/
def pyStrip (s : String) : String :=
  String.mk (((s.data.dropWhile Char.isWhitespace).reverse.dropWhile
    Char.isWhitespace).reverse)

/-- `str.startswith(pre)`. -/
def pyStartsWith (s pre : String) : Bool :=
  pre.data.isPrefixOf s.data

/-- `s[n:]`. -/
def pyDrop (s : String) (n : Nat) : String :=
  String.mk (s.data.drop n)

/-- `s[:n]`. -/
def pyTake (s : String) (n : Nat) : String :=
  String.mk (s.data.take n)

def splitCommaAux : List Char → List Char → List String
  | [], acc => [String.mk acc.reverse]
  | c :: rest, acc =>
      if c = ',' then String.mk acc.reverse :: splitCommaAux rest []
      else splitCommaAux rest (c :: acc)

/-- `str.split(",")` — keeps empty pieces, as Python does with an explicit
separator. -/
def pySplitComma (s : String) : List String :=
  splitCommaAux s.data []

/-- A meeting message: the deterministic fields of the dict built in
`MeetingOrchestrator._add_message` (`id` = `uuid4()` and
`created_at` = `datetime.now()` are nondeterministic and omitted;
`room_id` is fixed per meeting). -/
structure Message where
  sender_name : String
  sender_type : String
  message_type : String
  content : String
  content_type : String
  sequence_number : Nat
deriving Repr, DecidableEq

/-- A participant as stored in `MeetingOrchestrator.agents`: a dict
`{name, type, socket_id, persona_prompt, model}`.  Only `name` and `type`
drive scheduling; the remaining fields are consumed solely by
`_build_system_prompt` / `call_ai`, which the `Env` oracle abstracts. -/
structure Agent where
  name : String
  type : String
deriving Repr, DecidableEq

/-- `_parse_mentions`: `re.finditer(r"@([\w-]+)", text)` — the character
class `[\w-]` (word characters and hyphen; agent names are ASCII). -/
def mentionChar (c : Char) : Bool :=
  c.isAlphanum || c = '_' || c = '-'

/-- The regex scan underlying `_parse_mentions`: find each `@` followed by a
maximal nonempty run of `[\w-]` characters; matches are non-overlapping and
scanned left to right, as `re.finditer` does.  Fuel-indexed (every step
consumes at least one character, so fuel `l.length` is enough) to keep the
recursion structural. -/
def scanMentionsAux : Nat → List Char → List String
  | 0, _ => []
  | _ + 1, [] => []
  | fuel + 1, '@' :: rest =>
      let name := rest.takeWhile mentionChar
      if name.length = 0 then scanMentionsAux fuel rest
      else name.asString :: scanMentionsAux fuel (rest.drop name.length)
  | fuel + 1, _ :: rest => scanMentionsAux fuel rest

def scanMentions (l : List Char) : List String :=
  scanMentionsAux l.length l

/-- `MeetingOrchestrator._parse_mentions(text)`: the `@Name` tokens of
`text` whose `Name` is a known agent name, in scan order, duplicates kept. -/
def parse_mentions (agents : List Agent) (text : String) : List String :=
  (scanMentions text.toList).filter (fun n => (agents.map Agent.name).contains n)

/-- `MeetingOrchestrator._build_agent_order(mentioned)`: mentioned agents
first, then the rest; **both** groups keep the relative order of
`self.agents` (the source filters `self.agents` twice by membership in
`mentioned_set`). -/
def build_agent_order (agents : List Agent) (mentioned : List String) : List Agent :=
  if mentioned.isEmpty then agents
  else
    agents.filter (fun a => mentioned.contains a.name)
      ++ agents.filter (fun a => !mentioned.contains a.name)

/-- The mention computation at the top of each round in `_run_loop`
(lines 341–344): mentions of the five most recent messages, in message
order, fed to `_build_agent_order`. -/
def roundMentions (agents : List Agent) (messages : List Message) : List String :=
  ((messages.drop (messages.length - 5)).map Message.content).flatMap
    (parse_mentions agents)

/-- What the spec sentence says the round order should be (for the
refinement comparison of claim C5): mentioned participants first **in
in-message mention order, de-duplicated**, then the rest in original
relative order.  Follows the spec words, not the source. -/
def spec_mention_order (agents : List Agent) (mentioned : List String) : List Agent :=
  let dedup := mentioned.foldl (fun acc n => if acc.contains n then acc else acc ++ [n]) []
  (dedup.filterMap (fun n => agents.find? (fun a => a.name = n)))
    ++ agents.filter (fun a => !mentioned.contains a.name)

/-- A queued human message (`add_human_message` stores
`{"text": text, "from_name": from_name}`). -/
structure HumanMsg where
  text : String
  from_name : String
deriving Repr, DecidableEq

/-- Payloads broadcast on the meeting's topic `meeting:{code}` via
`stream_manager.broadcast` (the `type` field of each JSON envelope is the
constructor). -/
inductive BMsg where
  | meetingMessage (m : Message)
  | agentThinking (agent_name : String)
  | agentDone (agent_name : String)
  | turnRequest (agent_name topic conversation : String) (directives : List String)
  | meetingEnded (session_id : String) (rounds message_count : Nat)
deriving Repr, DecidableEq

/-- Observable effects of the orchestrator, in execution order: database
writes (each `execute` + `commit`), broadcasts, the cooldown sleep, the
registry removal, and `snap` — instrumentation recording
(`self.status`, `room_code ∈ _active_meetings`) at each point where either
changes. -/
inductive Eff where
  | persistMessage (m : Message)
  | broadcast (b : BMsg)
  | updateRoomStatus (status : String)
  | saveTranscript (transcript : String)
  | autoInterpretCall (session_id : String)
  | insertWallPost (content : String)
  | insertSessionComplete (session_id : String) (interp_count : Nat)
  | cooldownSleep (seconds : Rat)
  | popRegistry (room_code : String)
  | snap (status : String) (registered : Bool)
deriving Repr, DecidableEq

/-- The mutable state of a `MeetingOrchestrator` (constructor arguments and
the fields assigned in `__init__`), plus `registered`, which models
`room_code ∈ _active_meetings` for this meeting's code. -/
structure Orch where
  room_id : String
  room_code : String
  session_id : String
  topic : String
  task_description : String
  host_name : String
  agents : List Agent
  cooldown_seconds : Rat
  max_rounds : Nat
  messages : List Message
  directives : List String
  human_message_queue : List HumanMsg
  sequence : Nat
  current_round : Nat
  status : String
  stop_requested : Bool
  registered : Bool
deriving Repr, DecidableEq

/-- `MeetingOrchestrator.__init__`. -/
def Orch.init (room_id room_code session_id topic task_description : String)
    (agents : List Agent) (cooldown_seconds : Rat) (max_rounds : Nat)
    (host_name : String) : Orch :=
  { room_id, room_code, session_id, topic, task_description, host_name,
    agents, cooldown_seconds, max_rounds,
    messages := [], directives := [], human_message_queue := [],
    sequence := 0, current_round := 0, status := "waiting",
    stop_requested := false, registered := false }

/-- `MeetingOrchestrator._add_message`: increment the sequence counter,
build the message, append it to the in-memory log, then — when a `db`
handle was supplied — INSERT into `meeting_messages` and commit, and
finally broadcast a `meeting_message` event.  `withDb = false` models a
`db=None` call, which skips the INSERT but still broadcasts. -/
def add_message (s : Orch) (sender_name sender_type message_type content : String)
    (withDb : Bool) (content_type : String) : Orch × List Eff :=
  let seq := s.sequence + 1
  let msg : Message :=
    { sender_name, sender_type, message_type, content, content_type,
      sequence_number := seq }
  ({ s with sequence := seq, messages := s.messages ++ [msg] },
   (if withDb then [Eff.persistMessage msg] else [])
     ++ [Eff.broadcast (BMsg.meetingMessage msg)])

/-- One line of `_build_conversation_context`. -/
def messageLine (m : Message) : String :=
  let sn := m.sender_name
  let c := m.content
  if m.message_type = "directive" then s!"[DIRECTIVE from {sn}]: {c}"
  else if m.message_type = "status" then s!"[SYSTEM]: {c}"
  else s!"[{sn}]: {c}"

/-- `MeetingOrchestrator._build_conversation_context`: the last 30 messages,
one formatted line each, joined by newlines. -/
def build_conversation_context (s : Orch) : String :=
  String.intercalate "\n"
    ((s.messages.drop (s.messages.length - 30)).map messageLine)

/-- The oracle resolving the orchestrator's external inputs: `ai k` is the
result of `call_ai` on global turn `k` (`Except.error e` models the call
raising `e`); `ext k` is the outcome of awaiting the external future on
that turn (`none` models the 30 s `TimeoutError`); the remaining fields
are the finalizer's DB reads. -/
structure Env where
  ai : Nat → Except String String
  ext : Nat → Option String
  primary_interpretation : Option String
  interpretations_count : Nat

/-- `config.settings` flags consumed by `_finalize`. -/
structure Settings where
  auto_interpret : Bool
  auto_post_summaries : Bool

/-- `MeetingOrchestrator._run_external_turn`: create a future, broadcast a
`turn_request`, await it 30 s.  Resolution with `response` yields
`response` unless it is empty or strips to `"[PASS]"`; timeout appends the
status notice **with `db=None`** and yields a pass. -/
def run_external_turn (env : Env) (k : Nat) (s : Orch) (agent : Agent) :
    Orch × Option String × List Eff :=
  let an := agent.name
  let conversation := build_conversation_context s
  let req : List Eff :=
    [Eff.broadcast (BMsg.turnRequest an s.topic conversation s.directives)]
  match env.ext k with
  | some response =>
      (s, if response ≠ "" ∧ pyStrip response ≠ "[PASS]" then some response else none, req)
  | none =>
      let r := add_message s "System" "system" "status"
        (s!"{an} timed out (30s). Skipping turn.") false "text/plain"
      (r.1, none, req ++ r.2)

/-- `MeetingOrchestrator._run_agent_turn`: external agents go through the
turn protocol; internal agents call the AI — a raised exception appends a
status message (with the db handle) and passes; otherwise the stripped
response passes iff it is `"[PASS]"` or empty. -/
def run_agent_turn (env : Env) (k : Nat) (s : Orch) (agent : Agent) :
    Orch × Option String × List Eff :=
  if agent.type = "external" then run_external_turn env k s agent
  else
    match env.ai k with
    | Except.error e =>
        let n := agent.name
        let e100 := pyTake e 100
        let r := add_message s "System" "system" "status"
          (s!"Error getting response from {n}: {e100}") true "text/plain"
        (r.1, none, r.2)
    | Except.ok response =>
        let r := pyStrip response
        if r = "[PASS]" ∨ r = "" then (s, none, []) else (s, some r, [])

/-- The response-append step of `_run_loop` (lines 376–387): a response
starting with the literal `[ARTIFACT]` becomes an `artifact` entry with
content-type `text/markdown` and content `response[10:].strip()`; any
other response becomes a `message` entry with the response unmodified. -/
def append_agent_response (s : Orch) (agent_name response : String) : Orch × List Eff :=
  if pyStartsWith response "[ARTIFACT]" then
    let artifact_content := pyStrip (pyDrop response "[ARTIFACT]".length)
    add_message s agent_name "agent" "artifact" artifact_content true "text/markdown"
  else
    add_message s agent_name "agent" "message" response true "text/plain"

/-- `MeetingOrchestrator.add_directive` (routers supply a db handle):
record the directive, then append a `directive` message. -/
def add_directive (s : Orch) (text from_name : String) : Orch × List Eff :=
  add_message { s with directives := s.directives ++ [text] }
    from_name "human" "directive" text true "text/plain"

/-- `MeetingOrchestrator.add_human_message`: enqueue only. -/
def add_human_message (s : Orch) (text from_name : String) : Orch :=
  { s with human_message_queue := s.human_message_queue ++ [⟨text, from_name⟩] }

/-- `MeetingOrchestrator.add_agent`: reject duplicates, else append the
participant and a join status message (callers supply a db handle). -/
def add_agent (s : Orch) (agent : Agent) : Orch × Bool × List Eff :=
  if s.agents.any (fun a => a.name = agent.name) then (s, false, [])
  else
    let an := agent.name
    let r := add_message { s with agents := s.agents ++ [agent] }
      "System" "system" "status" (s!"{an} has joined the meeting.") true "text/plain"
    (r.1, true, r.2)

/-- The flag assignment in `MeetingOrchestrator.stop` (the wait/cancel of
the task is timing, not state). -/
def request_stop (s : Orch) : Orch :=
  { s with stop_requested := true }

/-- `MeetingOrchestrator.pause`: legal only from `active`. -/
def pause (s : Orch) : Orch :=
  if s.status = "active" then { s with status := "paused" } else s

/-- `MeetingOrchestrator.resume`: legal only from `paused`. -/
def resume (s : Orch) : Orch :=
  if s.status = "paused" then { s with status := "active" } else s

/-- External handler calls that interleave with the scheduler loop at its
await points. -/
inductive Op where
  | directive (text from_name : String)
  | humanMessage (text from_name : String)
  | join (agent : Agent)
  | requestStop
deriving Repr, DecidableEq

def applyOp (s : Orch) (op : Op) : Orch × List Eff :=
  match op with
  | Op.directive text from_name => add_directive s text from_name
  | Op.humanMessage text from_name => (add_human_message s text from_name, [])
  | Op.join agent => let r := add_agent s agent; (r.1, r.2.2)
  | Op.requestStop => (request_stop s, [])

def applyOps (s : Orch) (ops : List Op) : Orch × List Eff :=
  match ops with
  | [] => (s, [])
  | op :: rest =>
      let r := applyOp s op
      let r' := applyOps r.1 rest
      (r'.1, r.2 ++ r'.2)

/-- The `while self.human_message_queue:` drain over an explicit queue:
each entry becomes a Human `message` entry (with the db handle) and resets
the consecutive-pass counter to 0. -/
def drainQueue (s : Orch) (q : List HumanMsg) (passes : Nat) : Orch × Nat × List Eff :=
  match q with
  | [] => (s, passes, [])
  | hm :: rest =>
      let r := add_message s hm.from_name "human" "message" hm.text true "text/plain"
      let r' := drainQueue r.1 rest 0
      (r'.1, r'.2.1, r.2 ++ r'.2.2)

/-- The human-queue drain at the start of each agent turn. -/
def drainHumans (s : Orch) (passes : Nat) : Orch × Nat × List Eff :=
  drainQueue { s with human_message_queue := [] } s.human_message_queue passes

/-- The scheduler-loop state threaded through rounds: the orchestrator
state, the loop-local `consecutive_passes` counter, and the global turn
index (feeding `Env` and the op schedule). -/
structure LoopSt where
  s : Orch
  passes : Nat
  turnIdx : Nat
deriving Repr, DecidableEq

/-- The `for agent in agent_order:` loop of `_run_loop`.  Per turn: break
on stop; the pause-gate await (where scheduled handler calls interleave);
break on stop; drain human messages; broadcast `agent_thinking`; run the
agent's turn; broadcast `agent_done`; append a response (resetting the
pass counter) or count a pass; cooldown-sleep after a response.  Returns
the final loop state, `round_had_response`, and the effects emitted, in
order. -/
def forTurns (env : Env) (sched : Nat → List Op) :
    List Agent → LoopSt → Bool → (LoopSt × Bool) × List Eff
  | [], st, had => ((st, had), [])
  | agent :: rest, st, had =>
    if st.s.stop_requested then ((st, had), [])
    else
      let rOps := applyOps st.s (sched st.turnIdx)
      if rOps.1.stop_requested then
        ((⟨rOps.1, st.passes, st.turnIdx⟩, had), rOps.2)
      else
        let rDrain := drainHumans rOps.1 st.passes
        let thinking : List Eff := [Eff.broadcast (BMsg.agentThinking agent.name)]
        let rTurn := run_agent_turn env st.turnIdx rDrain.1 agent
        let done : List Eff := [Eff.broadcast (BMsg.agentDone agent.name)]
        match rTurn.2.1 with
        | some resp =>
            let rApp := append_agent_response rTurn.1 agent.name resp
            let cd : List Eff :=
              if Rat.blt 0 rApp.1.cooldown_seconds && !rApp.1.stop_requested
              then [Eff.cooldownSleep rApp.1.cooldown_seconds] else []
            let r := forTurns env sched rest ⟨rApp.1, 0, st.turnIdx + 1⟩ true
            (r.1, rOps.2 ++ rDrain.2.2 ++ thinking ++ rTurn.2.2 ++ done
              ++ rApp.2 ++ cd ++ r.2)
        | none =>
            let r := forTurns env sched rest
              ⟨rTurn.1, rDrain.2.1 + 1, st.turnIdx + 1⟩ had
            (r.1, rOps.2 ++ rDrain.2.2 ++ thinking ++ rTurn.2.2 ++ done ++ r.2)

/-- `self.current_round += 1` at the top of each round. -/
def bumpRound (s : Orch) : Orch :=
  { s with current_round := s.current_round + 1 }

/-- One iteration of the `while` loop of `_run_loop`: the round-top stop
check, the round increment, mention prioritisation over the five most
recent messages, the per-agent turn loop, then the idle check — when the
round had no response and `consecutive_passes` has reached the threshold,
append the idle status message and break.  The returned `Bool` is false
when the `while` loop must break. -/
def doRound (env : Env) (sched : Nat → List Op) (maxPasses : Nat) (st : LoopSt) :
    (LoopSt × Bool) × List Eff :=
  if st.s.stop_requested then ((st, false), [])
  else
    let s := bumpRound st.s
    let mentioned := roundMentions s.agents s.messages
    let agent_order := build_agent_order s.agents mentioned
    let r := forTurns env sched agent_order ⟨s, st.passes, st.turnIdx⟩ false
    let st1 := r.1.1
    if r.1.2 = false ∧ st1.passes ≥ maxPasses then
      let rIdle := add_message st1.s "System" "system" "status"
        "All agents have passed. Meeting ending due to idle." true "text/plain"
      ((⟨rIdle.1, st1.passes, st1.turnIdx⟩, false), r.2 ++ rIdle.2)
    else ((st1, true), r.2)

/-- The `while self.current_round < self.max_rounds and not
self._stop_requested:` loop, fuel-indexed; fuel `max_rounds` suffices
because every continuing iteration increments `current_round`. -/
def roundLoop (env : Env) (sched : Nat → List Op) (maxPasses : Nat) :
    Nat → LoopSt → LoopSt × List Eff
  | 0, st => (st, [])
  | fuel + 1, st =>
      if st.s.current_round < st.s.max_rounds ∧ st.s.stop_requested = false then
        let r := doRound env sched maxPasses st
        if r.1.2 then
          let r' := roundLoop env sched maxPasses fuel r.1.1
          (r'.1, r.2 ++ r'.2)
        else (r.1.1, r.2)
      else (st, [])

/-- One transcript line of `_finalize`. -/
def transcriptLine (m : Message) : String :=
  let sn := m.sender_name
  let c := m.content
  if m.message_type = "status" then s!"[System]: {c}"
  else if m.message_type = "directive" then s!"[Directive from {sn}]: {c}"
  else if m.message_type = "artifact" then s!"[{sn} — artifact]:\n{c}"
  else s!"[{sn}]: {c}"

/-- The speaker-attributed transcript built in `_finalize`. -/
def build_transcript (messages : List Message) : String :=
  String.intercalate "\n" (messages.map transcriptLine)

/-- `MeetingOrchestrator._finalize` on the happy path (each step is wrapped
in `try/except` in the source; DB failures are not modelled): status
`processing`, the round-count status message, transcript save, optional
auto-interpret and wall post, the single `session.complete` insert, status
`closed`, the `meeting_ended` broadcast, and the unconditional registry
pop. -/
def finalize (env : Env) (settings : Settings) (s : Orch) : Orch × List Eff :=
  let s0 := { s with status := "processing" }
  let e0 : List Eff := [Eff.snap "processing" s0.registered, Eff.updateRoomStatus "processing"]
  let rounds := s0.current_round
  let r1 := add_message s0 "System" "system" "status"
    (s!"Meeting ended after {rounds} rounds.") true "text/plain"
  let s1 := r1.1
  let transcript := build_transcript s1.messages
  let e2 : List Eff := [Eff.saveTranscript transcript]
  let sid := s1.session_id
  let e3 : List Eff := if settings.auto_interpret then [Eff.autoInterpretCall sid] else []
  let e4 : List Eff :=
    if settings.auto_post_summaries then
      let summary_snippet :=
        match env.primary_interpretation with
        | some md => pyTake md 500
        | none => pyTake transcript 500
      let topic := s1.topic
      [Eff.insertWallPost
        (s!"**Meeting completed**: {topic}\n\n{summary_snippet}...\n\nView: /session/{sid}")]
    else []
  let e5 : List Eff := [Eff.insertSessionComplete sid env.interpretations_count]
  let s2 := { s1 with status := "closed" }
  let e6 : List Eff := [Eff.snap "closed" s2.registered, Eff.updateRoomStatus "closed"]
  let e7 : List Eff :=
    [Eff.broadcast (BMsg.meetingEnded sid s2.current_round s2.messages.length)]
  let s3 := { s2 with registered := false }
  let e8 : List Eff := [Eff.popRegistry s3.room_code, Eff.snap "closed" false]
  (s3, e0 ++ r1.2 ++ e2 ++ e3 ++ e4 ++ e5 ++ e6 ++ e7 ++ e8)

/-- `self.status = "active"` at the top of `_run_loop`. -/
def activate (s : Orch) : Orch :=
  { s with status := "active" }

/-- The startup announcements of `_run_loop`: the topic status message,
then — when a task description is set — the task status message. -/
def announce (s : Orch) : Orch × List Eff :=
  let topic := s.topic
  let r1 := add_message s "System" "system" "status"
    (s!"Meeting started. Topic: {topic}") true "text/plain"
  if r1.1.task_description ≠ "" then
    let task := r1.1.task_description
    let r2 := add_message r1.1 "System" "system" "status" (s!"Task: {task}") true "text/plain"
    (r2.1, r1.2 ++ r2.2)
  else (r1.1, r1.2)

/-- `MeetingOrchestrator._run_loop`: set status `active`, announce topic
and task, run rounds with `consecutive_passes = 0` and the pass threshold
`len(self.agents) * 2` fixed up front, and — in the `finally:` — always run
`_finalize`. -/
def run_loop (env : Env) (sched : Nat → List Op) (settings : Settings) (s : Orch) :
    Orch × List Eff :=
  let s0 := activate s
  let t0 : List Eff := [Eff.snap "active" s0.registered, Eff.updateRoomStatus "active"]
  let rAnn := announce s0
  let maxPasses := rAnn.1.agents.length * 2
  let rLoop := roundLoop env sched maxPasses rAnn.1.max_rounds ⟨rAnn.1, 0, 0⟩
  let rFin := finalize env settings rLoop.1.s
  (rFin.1, t0 ++ rAnn.2 ++ rLoop.2 ++ rFin.2)

/-- `MeetingOrchestrator.start`: reject unless status is `waiting`, then
register the meeting in `_active_meetings` (context loading has no
modelled effect) and create the loop task. -/
def start (s : Orch) : Except String Orch :=
  if s.status ≠ "waiting" then Except.error "Cannot start meeting in this status"
  else Except.ok { s with registered := true }

/-- A whole meeting lifetime: `start` (registration happens while status
is still `waiting`; the created task only begins at the next event-loop
step) followed by `_run_loop` (whose `finally:` runs `_finalize`).  The
two leading `snap`s record (status, registered) before and after `start`
returns. -/
def startAndRun (env : Env) (sched : Nat → List Op) (settings : Settings) (s : Orch) :
    Option (Orch × List Eff) :=
  match start s with
  | Except.error _ => none
  | Except.ok s1 =>
      let r := run_loop env sched settings s1
      some (r.1, [Eff.snap s.status s.registered, Eff.snap s1.status s1.registered] ++ r.2)

/-! ## SHA-256 (`hashlib.sha256(...).hexdigest()`), over `Nat` bytes/words -/

/-- UTF-8 encoding of one scalar value (`str.encode()` operates on the
UTF-8 bytes of the text). -/
def encodeUtf8Char (c : Char) : List Nat :=
  let n := c.toNat
  if n < 128 then [n]
  else if n < 2048 then [192 + n / 64, 128 + n % 64]
  else if n < 65536 then [224 + n / 4096, 128 + (n / 64) % 64, 128 + n % 64]
  else [240 + n / 262144, 128 + (n / 4096) % 64, 128 + (n / 64) % 64, 128 + n % 64]

def utf8Bytes (s : String) : List Nat :=
  s.data.flatMap encodeUtf8Char

/-- Truncation to a 32-bit word. -/
def w32 (n : Nat) : Nat := n % 4294967296

/-- 32-bit right rotation (operands are < 2³²). -/
def rotr32 (k w : Nat) : Nat := (w >>> k) ||| w32 (w <<< (32 - k))

def smallSigma0 (x : Nat) : Nat := (rotr32 7 x) ^^^ (rotr32 18 x) ^^^ (x >>> 3)

def smallSigma1 (x : Nat) : Nat := (rotr32 17 x) ^^^ (rotr32 19 x) ^^^ (x >>> 10)

def bigSigma0 (x : Nat) : Nat := (rotr32 2 x) ^^^ (rotr32 13 x) ^^^ (rotr32 22 x)

def bigSigma1 (x : Nat) : Nat := (rotr32 6 x) ^^^ (rotr32 11 x) ^^^ (rotr32 25 x)

/-- The SHA-256 round constants. -/
def K256 : List Nat :=
  [1116352408, 1899447441, 3049323471, 3921009573, 961987163, 1508970993,
   2453635748, 2870763221, 3624381080, 310598401, 607225278, 1426881987,
   1925078388, 2162078206, 2614888103, 3248222580, 3835390401, 4022224774,
   264347078, 604807628, 770255983, 1249150122, 1555081692, 1996064986,
   2554220882, 2821834349, 2952996808, 3210313671, 3336571891, 3584528711,
   113926993, 338241895, 666307205, 773529912, 1294757372, 1396182291,
   1695183700, 1986661051, 2177026350, 2456956037, 2730485921, 2820302411,
   3259730800, 3345764771, 3516065817, 3600352804, 4094571909, 275423344,
   430227734, 506948616, 659060556, 883997877, 958139571, 1322822218,
   1537002063, 1747873779, 1955562222, 2024104815, 2227730452, 2361852424,
   2428436474, 2756734187, 3204031479, 3329325298]

/-- Merkle–Damgård padding: `128`, zeros to 56 mod 64, then the bit
length as 8 big-endian bytes. -/
def sha256pad (msg : List Nat) : List Nat :=
  let L := msg.length
  let z := (120 - ((L + 1) % 64)) % 64
  let bitLen := 8 * L
  msg ++ [128] ++ List.replicate z 0
    ++ [(bitLen >>> 56) % 256, (bitLen >>> 48) % 256, (bitLen >>> 40) % 256,
        (bitLen >>> 32) % 256, (bitLen >>> 24) % 256, (bitLen >>> 16) % 256,
        (bitLen >>> 8) % 256, bitLen % 256]

/-- Split into 64-byte blocks.  Fuel-indexed (each step consumes 64 bytes,
so fuel `l.length` is enough) to keep the recursion structural. -/
def chunksAux : Nat → List Nat → List (List Nat)
  | _, [] => []
  | 0, _ :: _ => []
  | fuel + 1, a :: t => ((a :: t).take 64) :: chunksAux fuel ((a :: t).drop 64)

def chunks64 (l : List Nat) : List (List Nat) :=
  chunksAux l.length l

/-- Big-endian 32-bit words from bytes. -/
def bytesToWords : List Nat → List Nat
  | a :: b :: c :: d :: rest =>
      (a * 16777216 + b * 65536 + c * 256 + d) :: bytesToWords rest
  | _ => []

/-- Extend the 16 block words to the 64-word message schedule. -/
def extendSchedule (ws : List Nat) : Nat → List Nat
  | 0 => ws
  | k + 1 =>
      let i := ws.length
      let nw := w32 (smallSigma1 (ws.getD (i - 2) 0) + ws.getD (i - 7) 0
        + smallSigma0 (ws.getD (i - 15) 0) + ws.getD (i - 16) 0)
      extendSchedule (ws ++ [nw]) k

/-- The eight 32-bit working variables. -/
structure Hash8 where
  a : Nat
  b : Nat
  c : Nat
  d : Nat
  e : Nat
  f : Nat
  g : Nat
  h : Nat
deriving Repr, DecidableEq

def sha256round (st : Hash8) (kw : Nat × Nat) : Hash8 :=
  let ch := (st.e &&& st.f) ^^^ ((st.e ^^^ 4294967295) &&& st.g)
  let maj := (st.a &&& st.b) ^^^ (st.a &&& st.c) ^^^ (st.b &&& st.c)
  let t1 := w32 (st.h + bigSigma1 st.e + ch + kw.1 + kw.2)
  let t2 := w32 (bigSigma0 st.a + maj)
  { a := w32 (t1 + t2), b := st.a, c := st.b, d := st.c,
    e := w32 (st.d + t1), f := st.e, g := st.f, h := st.g }

def processBlock (st : Hash8) (block : List Nat) : Hash8 :=
  let ws := extendSchedule (bytesToWords block) 48
  let r := (ws.zip K256).foldl sha256round st
  { a := w32 (st.a + r.a), b := w32 (st.b + r.b), c := w32 (st.c + r.c),
    d := w32 (st.d + r.d), e := w32 (st.e + r.e), f := w32 (st.f + r.f),
    g := w32 (st.g + r.g), h := w32 (st.h + r.h) }

def sha256words (msg : List Nat) : Hash8 :=
  (chunks64 (sha256pad msg)).foldl processBlock
    { a := 1779033703, b := 3144134277, c := 1013904242, d := 2773480762,
      e := 1359893119, f := 2600822924, g := 528734635, h := 1541459225 }

def hexDigitChar (n : Nat) : Char :=
  "0123456789abcdef".data.getD (n % 16) '0'

/-- `%02x` of one byte (bytes are < 256, so the inner `% 16` is inert). -/
def byteHex (b : Nat) : List Char := [hexDigitChar (b / 16), hexDigitChar b]

def wordBytes (w : Nat) : List Nat :=
  [w / 16777216 % 256, w / 65536 % 256, w / 256 % 256, w % 256]

/-- `hashlib.sha256(s.encode()).hexdigest()`. -/
def sha256hex (s : String) : String :=
  let d := sha256words (utf8Bytes s)
  String.mk (([d.a, d.b, d.c, d.d, d.e, d.f, d.g, d.h].flatMap wordBytes).flatMap byteHex)

/-! ## `services/auth_service.py` and `main.py::register_agent` -/

/-- `ALL_SCOPES`. -/
def ALL_SCOPES : List String :=
  ["sessions:read", "sessions:write", "rooms:write", "wall:read", "wall:write"]

/-- `_parse_scopes`: `None` (NULL column) means all scopes; otherwise split
on commas, strip whitespace, and drop blank entries. -/
def parse_scopes (raw : Option String) : List String :=
  match raw with
  | none => ALL_SCOPES
  | some r => ((pySplitComma r).map pyStrip).filter (fun s => s ≠ "")

/-- One row of the `api_keys` table. -/
structure ApiKeyRow where
  id : String
  name : String
  key_hash : String
  scopes : Option String
  created_at : String
  last_used_at : Option String
deriving Repr, DecidableEq

/-- The dict `verify_api_key` returns: the row with the raw `scopes` column
replaced by the parsed list plus the `has_all_scopes` marker. -/
structure Credential where
  id : String
  name : String
  key_hash : String
  created_at : String
  last_used_at : Option String
  scopes : List String
  has_all_scopes : Bool
deriving Repr, DecidableEq

/-- `verify_api_key`: check the `Bearer ` header shape and the
`scribe_sk_` token shape, hash the candidate, look the hash up in
`api_keys`, update `last_used_at`, and return the credential.  Errors are
`HTTPException(code, message)`. -/
def verify_api_key (auth : String) (now : String) (db : List ApiKeyRow) :
    Except (Nat × String) Credential × List ApiKeyRow :=
  if ¬ pyStartsWith auth "Bearer " then
    (Except.error (401, "Missing or invalid Authorization header"), db)
  else
    let token := pyDrop auth 7
    if ¬ pyStartsWith token "scribe_sk_" then
      (Except.error (401, "Invalid API key format"), db)
    else
      let key_hash := sha256hex token
      match db.find? (fun r => r.key_hash = key_hash) with
      | none => (Except.error (401, "Invalid API key"), db)
      | some row =>
          let db' := db.map fun r =>
            if r.id = row.id then { r with last_used_at := some now } else r
          (Except.ok
            { id := row.id, name := row.name, key_hash := row.key_hash,
              created_at := row.created_at, last_used_at := row.last_used_at,
              scopes := parse_scopes row.scopes,
              has_all_scopes := row.scopes.isNone }, db')

/-- `require_scope(scope)`'s `_check` dependency: verify, then pass keys
with NULL scopes unconditionally, and reject with 403 unless the explicit
scope list contains the required scope. -/
def require_scope (scope : String) (auth now : String) (db : List ApiKeyRow) :
    Except (Nat × String) Credential × List ApiKeyRow :=
  match verify_api_key auth now db with
  | (Except.error e, db') => (Except.error e, db')
  | (Except.ok k, db') =>
      if k.has_all_scopes then (Except.ok k, db')
      else if k.scopes.contains scope then (Except.ok k, db')
      else (Except.error (403, s!"API key missing required scope: {scope}"), db')

/-- A scope-guarded endpoint: FastAPI resolves the `require_scope`
dependency first; the handler body (an arbitrary state mutation) runs only
if it succeeded. -/
def guarded_endpoint {α : Type} (scope auth now : String) (db : List ApiKeyRow)
    (handler : List ApiKeyRow → List ApiKeyRow × α) :
    Except (Nat × String) α × List ApiKeyRow :=
  match require_scope scope auth now db with
  | (Except.error e, db') => (Except.error e, db')
  | (Except.ok _, db') => let r := handler db'; (Except.ok r.2, r.1)

/-- One row of `wall_posts` (the columns `register_agent` inserts). -/
structure WallPost where
  id : String
  agent_name : String
  agent_key_id : Option String
  content : String
  post_type : String
  created_at : String
deriving Repr, DecidableEq

/-- The tables `register_agent` writes. -/
structure Db where
  api_keys : List ApiKeyRow
  wall_posts : List WallPost
deriving Repr, DecidableEq

/-- The response body of `POST /api/agents/register` (the rendered
`skill_md` and static endpoint directory omitted). -/
structure RegisterResult where
  api_key : String
  api_key_id : String
  agent_name : String
  wall_post_id : String
deriving Repr, DecidableEq

/-- `main.py::register_agent`: reject a blank name; mint
`scribe_sk_<random>`; INSERT into `api_keys` only `(id, name, key_hash,
created_at)` — the `scopes` and `last_used_at` columns stay NULL; INSERT
the intro wall post; return the plaintext token once.  `key_id`,
`raw_rand`, `post_id` and `now` stand for the `uuid4`/`token_urlsafe`/
clock values. -/
def register_agent (db : Db) (body_agent_name : Option String)
    (key_id raw_rand post_id now : String) :
    Except (Nat × String) RegisterResult × Db :=
  let agent_name := pyStrip (body_agent_name.getD "")
  if agent_name = "" then (Except.error (400, "agent_name is required"), db)
  else
    let raw_key := "scribe_sk_" ++ raw_rand
    let key_hash := sha256hex raw_key
    let row : ApiKeyRow :=
      { id := key_id, name := agent_name, key_hash, scopes := none,
        created_at := now, last_used_at := none }
    let post : WallPost :=
      { id := post_id, agent_name, agent_key_id := some key_id,
        content := agent_name ++ " has connected to EchoBridge!",
        post_type := "intro", created_at := now }
    (Except.ok
      { api_key := raw_key, api_key_id := key_id, agent_name,
        wall_post_id := post_id },
     { db with api_keys := db.api_keys ++ [row],
               wall_posts := db.wall_posts ++ [post] })

/-! ## `routers/agent.py`: the respond endpoint and `agent_analyze` -/

/-- An `asyncio.Future` for one pending external turn. -/
structure PendingFuture where
  done : Bool
  result : Option String
deriving Repr, DecidableEq

/-- `MeetingOrchestrator.submit_external_response`: resolve the pending
future for `agent_name` if there is one and it is not yet done. -/
def submit_external_response (table : List (String × PendingFuture))
    (agent_name response : String) : Bool × List (String × PendingFuture) :=
  match table.find? (fun kv => kv.1 = agent_name) with
  | some kv =>
      if kv.2.done = false then
        (true, table.map fun kv' =>
          if kv'.1 = agent_name then (kv'.1, ⟨true, some response⟩) else kv')
      else (false, table)
  | none => (false, table)

inductive RespondOutcome where
  | notFound
  | badRequest (msg : String)
  | submitted (agent_name : String)
deriving Repr, DecidableEq

/-- `body.get("agent_name") or api_key.get("name", "agent")`: the body
field wins unless missing or falsy (the empty string). -/
def respond_agent_name (body_agent_name : Option String) (key_name : String) : String :=
  match body_agent_name with
  | some n => if n = "" then key_name else n
  | none => key_name

/-- `agent_meeting_respond`: 404 without a registered orchestrator;
`agent_name` falls back to the credential name when the body field is
missing or falsy; an empty `response` is rejected with 400 **before**
`submit_external_response` is called; otherwise resolve the pending
future or reject with 400. -/
def agent_meeting_respond (orch : Option (List (String × PendingFuture)))
    (body_agent_name : Option String) (key_name : String)
    (body_response : Option String) :
    RespondOutcome × Option (List (String × PendingFuture)) :=
  match orch with
  | none => (RespondOutcome.notFound, none)
  | some table =>
      let agent_name := respond_agent_name body_agent_name key_name
      let response := body_response.getD ""
      if response = "" then
        (RespondOutcome.badRequest "Response is required", some table)
      else
        let r := submit_external_response table agent_name response
        if r.1 then (RespondOutcome.submitted agent_name, some r.2)
        else (RespondOutcome.badRequest "No pending turn for this agent", some r.2)

/-- The tail of `routers/agent.py::agent_analyze` (lines 395–448): after
the session row, transcript and socket guards, it always INSERTs a
`session.complete` event row for the session — independently of the
orchestrator's finalizer.  `session_row` is the session lookup result
(`some transcript-column` when the row exists). -/
def agent_analyze (session_row : Option (Option String))
    (body_socket_ids : List String) (auto_sockets : String)
    (interp_count : Nat) (session_id : String) :
    Except (Nat × String) (List Eff) :=
  match session_row with
  | none => Except.error (404, "Session not found")
  | some transcript =>
      if transcript.getD "" = "" then
        Except.error (400, "Session has no transcript")
      else
        let socket_ids :=
          if body_socket_ids.isEmpty then
            ((pySplitComma auto_sockets).map pyStrip).filter (fun s => s ≠ "")
          else body_socket_ids
        if socket_ids.isEmpty then
          Except.error (400, "No socket_ids provided and no auto_sockets configured")
        else Except.ok [Eff.insertSessionComplete session_id interp_count]

/-! ## Trace predicates for the log invariants -/

/-- Whether a persist of exactly `m` already occurred. -/
def hasPersist (seen : List Eff) (m : Message) : Bool :=
  seen.any (fun e => e = Eff.persistMessage m)

def timeoutSuffix : String := " timed out (30s). Skipping turn."

/-- The shape of the one message `_run_external_turn` appends with
`db=None`: the System status notice ending in the timeout phrase. -/
def exemptTimeoutNotice (m : Message) : Bool :=
  (m.sender_name = "System") && (m.sender_type = "system")
    && (m.message_type = "status")
    && (m.content.data.drop (m.content.data.length - timeoutSuffix.data.length)
          = timeoutSuffix.data)

/-- Walk a trace left to right: every `meeting_message` broadcast must have
been preceded by a persist of the same message, unless it is the
(db-less) external-timeout notice. -/
def pbCheck : List Eff → List Eff → Bool
  | _, [] => true
  | seen, e :: rest =>
      (match e with
       | Eff.broadcast (BMsg.meetingMessage m) => hasPersist seen m || exemptTimeoutNotice m
       | _ => true)
      && pbCheck (seen ++ [e]) rest

/-- Persist-before-broadcast holds for `t` after any prior history. -/
def PBgood (t : List Eff) : Prop := ∀ seen, pbCheck seen t = true

/-- The effect kinds the scheduler loop itself can emit (everything else —
status snaps, room-status updates, transcript saves, `session.complete`
inserts, registry pops — happens only in `start`/`_run_loop`'s prologue
or `_finalize`). -/
def LoopEffOk : Eff → Bool
  | Eff.persistMessage _ => true
  | Eff.broadcast _ => true
  | Eff.cooldownSleep _ => true
  | _ => false

/-- Sequence density of the in-memory log: the stamped sequence numbers
are exactly `1, 2, …, sequence`. -/
def SeqInv (s : Orch) : Prop :=
  s.messages.map Message.sequence_number = (List.range s.sequence).map (· + 1)

/-- The orchestrator fields no turn-loop step ever writes. -/
def Untouched (a b : Orch) : Prop :=
  b.room_id = a.room_id ∧ b.room_code = a.room_code ∧ b.session_id = a.session_id ∧
  b.topic = a.topic ∧ b.host_name = a.host_name ∧
  b.cooldown_seconds = a.cooldown_seconds ∧ b.max_rounds = a.max_rounds ∧
  b.status = a.status ∧ b.registered = a.registered

/-- Number of `session.complete` event inserts for `sid` in a trace. -/
def scCount (t : List Eff) (sid : String) : Nat :=
  (t.filter fun e =>
    match e with
    | Eff.insertSessionComplete s _ => s = sid
    | _ => false).length

/-- Number of registry removals for `code` in a trace. -/
def popCount (t : List Eff) (code : String) : Nat :=
  (t.filter fun e =>
    match e with
    | Eff.popRegistry c => c = code
    | _ => false).length

theorem pbCheck_append (seen t₁ t₂ : List Eff) :
    pbCheck seen (t₁ ++ t₂) = (pbCheck seen t₁ && pbCheck (seen ++ t₁) t₂) := by
  induction t₁ generalizing seen with
  | nil => simp [pbCheck]
  | cons e rest ih =>
      simp only [List.cons_append, pbCheck]
      rw [show rest.append t₂ = rest ++ t₂ from rfl, ih (seen ++ [e]),
        List.append_assoc, List.singleton_append, Bool.and_assoc]

theorem PBgood_nil : PBgood [] := fun _ => rfl

theorem PBgood_append {t₁ t₂ : List Eff} (h₁ : PBgood t₁) (h₂ : PBgood t₂) :
    PBgood (t₁ ++ t₂) := by
  intro seen
  rw [pbCheck_append, h₁ seen, h₂ (seen ++ t₁)]
  rfl

theorem Untouched_refl (a : Orch) : Untouched a a := by
  refine ⟨rfl, rfl, rfl, rfl, rfl, rfl, rfl, rfl, rfl⟩

theorem Untouched_trans {a b c : Orch} (h₁ : Untouched a b) (h₂ : Untouched b c) :
    Untouched a c := by
  obtain ⟨e1, e2, e3, e4, e5, e6, e7, e8, e9⟩ := h₁
  obtain ⟨f1, f2, f3, f4, f5, f6, f7, f8, f9⟩ := h₂
  exact ⟨f1.trans e1, f2.trans e2, f3.trans e3, f4.trans e4, f5.trans e5,
    f6.trans e6, f7.trans e7, f8.trans e8, f9.trans e9⟩

/-- The behavior bundle of one loop-emitted state/effect step. -/
def Step (s : Orch) (r : Orch × List Eff) : Prop :=
  PBgood r.2 ∧ (∀ e ∈ r.2, LoopEffOk e = true) ∧ Untouched s r.1 ∧
    (SeqInv s → SeqInv r.1)

theorem Step_pure (s : Orch) : Step s (s, []) :=
  ⟨PBgood_nil, by simp, Untouched_refl s, fun h => h⟩

theorem Step_comp {s : Orch} {r₁ r₂ : Orch × List Eff}
    (h₁ : Step s r₁) (h₂ : Step r₁.1 r₂) : Step s (r₂.1, r₁.2 ++ r₂.2) := by
  obtain ⟨p1, l1, u1, q1⟩ := h₁
  obtain ⟨p2, l2, u2, q2⟩ := h₂
  refine ⟨PBgood_append p1 p2, ?_, Untouched_trans u1 u2, fun h => q2 (q1 h)⟩
  intro e he
  rcases List.mem_append.1 he with h | h
  · exact l1 e h
  · exact l2 e h

theorem Step_add_message_db (s : Orch) (n ty mt c ct : String) :
    Step s (add_message s n ty mt c true ct) := by
  refine ⟨?_, ?_, ?_, ?_⟩
  · intro seen
    simp [add_message, pbCheck, hasPersist, List.any_append]
  · intro e he
    simp only [add_message, if_pos, List.mem_append, List.mem_singleton,
      List.mem_cons, List.not_mem_nil, or_false] at he
    rcases he with h | h <;> subst h <;> rfl
  · exact ⟨rfl, rfl, rfl, rfl, rfl, rfl, rfl, rfl, rfl⟩
  · intro h
    simp only [SeqInv, add_message] at *
    rw [List.map_append, h, show s.sequence + 1 = Nat.succ s.sequence from rfl,
      List.range_succ, List.map_append]
    rfl

theorem exempt_timeout (an : String) (k : Nat) :
    exemptTimeoutNotice
      { sender_name := "System", sender_type := "system", message_type := "status",
        content := s!"{an} timed out (30s). Skipping turn.",
        content_type := "text/plain", sequence_number := k } = true := by
  have hc : (s!"{an} timed out (30s). Skipping turn.") = an ++ timeoutSuffix := rfl
  simp only [exemptTimeoutNotice, hc, String.data_append, List.length_append,
    Nat.add_sub_cancel, List.drop_left]
  simp

theorem Step_timeout_notice (s : Orch) (an : String) :
    Step s (add_message s "System" "system" "status"
      (s!"{an} timed out (30s). Skipping turn.") false "text/plain") := by
  refine ⟨?_, ?_, ⟨rfl, rfl, rfl, rfl, rfl, rfl, rfl, rfl, rfl⟩, ?_⟩
  · intro seen
    simp [add_message, pbCheck, exempt_timeout]
  · intro e he
    simp [add_message] at he
    subst he; rfl
  · intro h
    simp only [SeqInv, add_message] at *
    rw [List.map_append, h, show s.sequence + 1 = Nat.succ s.sequence from rfl,
      List.range_succ, List.map_append]
    rfl

theorem Step_broadcast (s : Orch) (b : BMsg)
    (hb : (match b with | BMsg.meetingMessage _ => false | _ => true) = true) :
    Step s (s, [Eff.broadcast b]) := by
  refine ⟨?_, ?_, Untouched_refl s, fun h => h⟩
  · intro seen
    cases b
    case meetingMessage => simp at hb
    all_goals simp [pbCheck]
  · intro e he
    simp only [List.mem_singleton] at he
    subst he; rfl

theorem Step_cooldown (s : Orch) (q : Rat) : Step s (s, [Eff.cooldownSleep q]) := by
  refine ⟨?_, ?_, Untouched_refl s, fun h => h⟩
  · intro seen; simp [pbCheck]
  · intro e he
    simp only [List.mem_singleton] at he
    subst he; rfl

theorem Step_run_agent_turn (env : Env) (k : Nat) (s : Orch) (agent : Agent) :
    Step s ((run_agent_turn env k s agent).1, (run_agent_turn env k s agent).2.2) := by
  unfold run_agent_turn run_external_turn
  split
  · cases hext : env.ext k with
    | some response =>
        simp only [hext]
        exact Step_broadcast s _ rfl
    | none =>
        simp only [hext]
        exact Step_comp (Step_broadcast s _ rfl) (Step_timeout_notice s agent.name)
  · cases hai : env.ai k with
    | error e =>
        simp only [hai]
        exact Step_add_message_db s _ _ _ _ _
    | ok response =>
        simp only [hai]
        split
        · exact Step_pure s
        · exact Step_pure s

theorem Step_append_agent_response (s : Orch) (n r : String) :
    Step s (append_agent_response s n r) := by
  unfold append_agent_response
  split
  · exact Step_add_message_db s _ _ _ _ _
  · exact Step_add_message_db s _ _ _ _ _

theorem Step_applyOp (s : Orch) (op : Op) : Step s (applyOp s op) := by
  cases op with
  | directive text from_name =>
      have h1 : Step s ({ s with directives := s.directives ++ [text] }, ([] : List Eff)) :=
        ⟨PBgood_nil, by simp, ⟨rfl, rfl, rfl, rfl, rfl, rfl, rfl, rfl, rfl⟩, fun h => h⟩
      exact Step_comp h1 (Step_add_message_db _ from_name "human" "directive" text "text/plain")
  | humanMessage text from_name =>
      exact ⟨PBgood_nil, by simp [applyOp], ⟨rfl, rfl, rfl, rfl, rfl, rfl, rfl, rfl, rfl⟩,
        fun h => h⟩
  | join agent =>
      show Step s ((add_agent s agent).1, (add_agent s agent).2.2)
      unfold add_agent
      split
      · exact Step_pure s
      · have h1 : Step s ({ s with agents := s.agents ++ [agent] }, ([] : List Eff)) :=
          ⟨PBgood_nil, by simp, ⟨rfl, rfl, rfl, rfl, rfl, rfl, rfl, rfl, rfl⟩, fun h => h⟩
        exact Step_comp h1 (Step_add_message_db _ "System" "system" "status"
          (s!"{agent.name} has joined the meeting.") "text/plain")
  | requestStop =>
      exact ⟨PBgood_nil, by simp [applyOp], ⟨rfl, rfl, rfl, rfl, rfl, rfl, rfl, rfl, rfl⟩,
        fun h => h⟩

theorem Step_applyOps (s : Orch) (ops : List Op) : Step s (applyOps s ops) := by
  induction ops generalizing s with
  | nil => exact Step_pure s
  | cons op rest ih =>
      simp only [applyOps]
      exact Step_comp (Step_applyOp s op) (ih (applyOp s op).1)

theorem Step_drainQueue (s : Orch) (q : List HumanMsg) (p : Nat) :
    Step s ((drainQueue s q p).1, (drainQueue s q p).2.2) := by
  induction q generalizing s p with
  | nil => exact Step_pure s
  | cons hm rest ih =>
      simp only [drainQueue]
      exact Step_comp (Step_add_message_db s _ _ _ _ _)
        (ih (add_message s hm.from_name "human" "message" hm.text true "text/plain").1 0)

theorem Step_drainHumans (s : Orch) (p : Nat) :
    Step s ((drainHumans s p).1, (drainHumans s p).2.2) := by
  unfold drainHumans
  have h1 : Step s ({ s with human_message_queue := [] }, ([] : List Eff)) :=
    ⟨PBgood_nil, by simp, ⟨rfl, rfl, rfl, rfl, rfl, rfl, rfl, rfl, rfl⟩, fun h => h⟩
  exact Step_comp h1 (Step_drainQueue _ _ _)

theorem forTurns_delta (env : Env) (sched : Nat → List Op) (L : List Agent)
    (st : LoopSt) (had : Bool) :
    Step st.s ((forTurns env sched L st had).1.1.s, (forTurns env sched L st had).2) := by
  induction L generalizing st had with
  | nil => exact Step_pure st.s
  | cons agent rest ih =>
      rw [forTurns]
      cases hstop : st.s.stop_requested with
      | true =>
          rw [if_pos rfl]
          exact Step_pure st.s
      | false =>
          rw [if_neg Bool.false_ne_true]
          have SA := Step_applyOps st.s (sched st.turnIdx)
          rcases hA : applyOps st.s (sched st.turnIdx) with ⟨sA, eA⟩
          rw [hA] at SA
          dsimp only
          cases hops : sA.stop_requested with
          | true =>
              rw [if_pos rfl]
              exact SA
          | false =>
              rw [if_neg Bool.false_ne_true]
              have SD := Step_drainHumans sA st.passes
              rcases hD : drainHumans sA st.passes with ⟨sD, pD, eD⟩
              rw [hD] at SD
              dsimp only
              have ST := Step_run_agent_turn env st.turnIdx sD agent
              rcases hT : run_agent_turn env st.turnIdx sD agent with ⟨sT, oT, eT⟩
              rw [hT] at ST
              dsimp only
              cases oT with
              | some resp =>
                  dsimp only
                  have SP := Step_append_agent_response sT agent.name resp
                  rcases hP : append_agent_response sT agent.name resp with ⟨sP, eP⟩
                  rw [hP] at SP
                  dsimp only
                  have C5 := Step_comp (Step_comp (Step_comp (Step_comp (Step_comp
                    SA SD) (Step_broadcast sD (BMsg.agentThinking agent.name) rfl)) ST)
                    (Step_broadcast sT (BMsg.agentDone agent.name) rfl)) SP
                  cases hcd : Rat.blt 0 sP.cooldown_seconds && !sP.stop_requested with
                  | true =>
                      rw [if_pos rfl]
                      exact Step_comp (Step_comp C5 (Step_cooldown sP sP.cooldown_seconds))
                        (ih ⟨sP, 0, st.turnIdx + 1⟩ true)
                  | false =>
                      rw [if_neg Bool.false_ne_true]
                      exact Step_comp (Step_comp C5 (Step_pure sP))
                        (ih ⟨sP, 0, st.turnIdx + 1⟩ true)
              | none =>
                  dsimp only
                  exact Step_comp (Step_comp (Step_comp (Step_comp (Step_comp
                    SA SD) (Step_broadcast sD (BMsg.agentThinking agent.name) rfl)) ST)
                    (Step_broadcast sT (BMsg.agentDone agent.name) rfl))
                    (ih ⟨sT, pD + 1, st.turnIdx + 1⟩ had)



theorem Step_bumpRound (s : Orch) : Step s (bumpRound s, []) :=
  ⟨PBgood_nil, by simp, ⟨rfl, rfl, rfl, rfl, rfl, rfl, rfl, rfl, rfl⟩, fun h => h⟩

theorem doRound_delta (env : Env) (sched : Nat → List Op) (maxPasses : Nat) (st : LoopSt) :
    Step st.s ((doRound env sched maxPasses st).1.1.s, (doRound env sched maxPasses st).2) := by
  rw [doRound]
  cases hstop : st.s.stop_requested with
  | true =>
      rw [if_pos rfl]
      exact Step_pure st.s
  | false =>
      rw [if_neg Bool.false_ne_true]
      dsimp only
      have SF := forTurns_delta env sched
        (build_agent_order (bumpRound st.s).agents
          (roundMentions (bumpRound st.s).agents (bumpRound st.s).messages))
        ⟨bumpRound st.s, st.passes, st.turnIdx⟩ false
      rcases hF : forTurns env sched
        (build_agent_order (bumpRound st.s).agents
          (roundMentions (bumpRound st.s).agents (bumpRound st.s).messages))
        ⟨bumpRound st.s, st.passes, st.turnIdx⟩ false
        with ⟨⟨stF, hadF⟩, eF⟩
      rw [hF] at SF
      dsimp only at SF
      have C1 := Step_comp (Step_bumpRound st.s) SF
      split
      · have SI := Step_add_message_db stF.s "System" "system" "status"
          "All agents have passed. Meeting ending due to idle." "text/plain"
        rcases hI : add_message stF.s "System" "system" "status"
          "All agents have passed. Meeting ending due to idle." true "text/plain"
          with ⟨sI, eI⟩
        rw [hI] at SI
        dsimp only
        exact Step_comp C1 SI
      · dsimp only
        exact C1



theorem roundLoop_delta (env : Env) (sched : Nat → List Op) (maxPasses : Nat)
    (fuel : Nat) (st : LoopSt) :
    Step st.s ((roundLoop env sched maxPasses fuel st).1.s,
      (roundLoop env sched maxPasses fuel st).2) := by
  induction fuel generalizing st with
  | zero => exact Step_pure st.s
  | succ fuel ih =>
      rw [roundLoop]
      split
      · have SR := doRound_delta env sched maxPasses st
        rcases hR : doRound env sched maxPasses st with ⟨⟨stR, contR⟩, eR⟩
        rw [hR] at SR
        dsimp only at SR ⊢
        cases contR with
        | true =>
            rw [if_pos rfl]
            exact Step_comp SR (ih stR)
        | false =>
            rw [if_neg Bool.false_ne_true]
            exact SR
      · exact Step_pure st.s


/-- Snapshot soundness: every snapshot of a live status shows the meeting
registered. -/
def SnapsOK (t : List Eff) : Prop :=
  ∀ stt reg, Eff.snap stt reg ∈ t →
    (stt = "active" ∨ stt = "paused" ∨ stt = "processing") → reg = true

theorem finalize_PB (env : Env) (settings : Settings) (s : Orch) :
    PBgood (finalize env settings s).2 := by
  intro seen
  rcases settings with ⟨ai, ap⟩
  cases ai <;> cases ap <;>
    simp [finalize, add_message, pbCheck, hasPersist, List.any_append]

theorem finalize_scCount (env : Env) (settings : Settings) (s : Orch) :
    scCount (finalize env settings s).2 s.session_id = 1 := by
  rcases settings with ⟨ai, ap⟩
  cases ai <;> cases ap <;>
    simp [finalize, add_message, scCount]

theorem finalize_popCount (env : Env) (settings : Settings) (s : Orch) :
    popCount (finalize env settings s).2 s.room_code = 1 := by
  rcases settings with ⟨ai, ap⟩
  cases ai <;> cases ap <;>
    simp [finalize, add_message, popCount]

theorem finalize_snaps (env : Env) (settings : Settings) (s : Orch) :
    ∀ stt reg, Eff.snap stt reg ∈ (finalize env settings s).2 →
      (stt = "processing" ∧ reg = s.registered) ∨ stt = "closed" := by
  intro stt reg hmem
  rcases settings with ⟨ai, ap⟩
  cases ai <;> cases ap <;>
    simp [finalize, add_message] at hmem <;> tauto

theorem finalize_fields (env : Env) (settings : Settings) (s : Orch) :
    (finalize env settings s).1.registered = false ∧
    (finalize env settings s).1.status = "closed" ∧
    (finalize env settings s).1.session_id = s.session_id ∧
    (finalize env settings s).1.room_code = s.room_code ∧
    (finalize env settings s).1.current_round = s.current_round := by
  refine ⟨rfl, rfl, rfl, rfl, rfl⟩

theorem finalize_SeqInv (env : Env) (settings : Settings) (s : Orch)
    (h : SeqInv s) : SeqInv (finalize env settings s).1 := by
  simp only [SeqInv, finalize, add_message] at h ⊢
  rw [List.map_append, h, show s.sequence + 1 = Nat.succ s.sequence from rfl,
    List.range_succ, List.map_append]
  rfl

theorem scCount_append (a b : List Eff) (sid : String) :
    scCount (a ++ b) sid = scCount a sid + scCount b sid := by
  simp [scCount, List.filter_append]

theorem popCount_append (a b : List Eff) (code : String) :
    popCount (a ++ b) code = popCount a code + popCount b code := by
  simp [popCount, List.filter_append]

theorem scCount_of_loopEff {t : List Eff} (h : ∀ e ∈ t, LoopEffOk e = true)
    (sid : String) : scCount t sid = 0 := by
  unfold scCount
  rw [List.length_eq_zero, List.filter_eq_nil_iff]
  intro e he
  have := h e he
  cases e <;> simp_all [LoopEffOk]

theorem popCount_of_loopEff {t : List Eff} (h : ∀ e ∈ t, LoopEffOk e = true)
    (code : String) : popCount t code = 0 := by
  unfold popCount
  rw [List.length_eq_zero, List.filter_eq_nil_iff]
  intro e he
  have := h e he
  cases e <;> simp_all [LoopEffOk]

theorem SnapsOK_of_loopEff {t : List Eff} (h : ∀ e ∈ t, LoopEffOk e = true) :
    SnapsOK t := by
  intro stt reg hmem _
  have := h _ hmem
  simp [LoopEffOk] at this

theorem SnapsOK_append {a b : List Eff} (ha : SnapsOK a) (hb : SnapsOK b) :
    SnapsOK (a ++ b) := by
  intro stt reg hmem hs
  rcases List.mem_append.1 hmem with h | h
  · exact ha stt reg h hs
  · exact hb stt reg h hs

theorem Step_announce (s : Orch) : Step s (announce s) := by
  rw [announce]
  dsimp only
  split
  · exact Step_comp (Step_add_message_db s _ _ _ _ _) (Step_add_message_db _ _ _ _ _ _)
  · exact Step_add_message_db s _ _ _ _ _

theorem run_loop_main (env : Env) (sched : Nat → List Op) (settings : Settings)
    (s : Orch) (hreg : s.registered = true) :
    PBgood (run_loop env sched settings s).2 ∧
    scCount (run_loop env sched settings s).2 s.session_id = 1 ∧
    popCount (run_loop env sched settings s).2 s.room_code = 1 ∧
    SnapsOK (run_loop env sched settings s).2 ∧
    (SeqInv s → SeqInv (run_loop env sched settings s).1) ∧
    (run_loop env sched settings s).1.registered = false ∧
    (run_loop env sched settings s).1.status = "closed" := by
  rw [run_loop]
  dsimp only
  have SAnn := Step_announce (activate s)
  rcases hAnn : announce (activate s) with ⟨sAnn, eAnn⟩
  rw [hAnn] at SAnn
  have SL := roundLoop_delta env sched (sAnn.agents.length * 2) sAnn.max_rounds
    ⟨sAnn, 0, 0⟩
  rcases hL : roundLoop env sched (sAnn.agents.length * 2) sAnn.max_rounds ⟨sAnn, 0, 0⟩
    with ⟨stL, eL⟩
  rw [hL] at SL
  dsimp only at SL
  dsimp only
  obtain ⟨pA, lA, uA, qA⟩ := SAnn
  obtain ⟨pL, lL, uL, qL⟩ := SL
  obtain ⟨_, hAcode, hAsid, _, _, _, _, _, hAreg⟩ := uA
  obtain ⟨_, hLcode, hLsid, _, _, _, _, _, hLreg⟩ := uL
  have hsid : stL.s.session_id = s.session_id := by
    rw [hLsid, hAsid]
    rfl
  have hcode : stL.s.room_code = s.room_code := by
    rw [hLcode, hAcode]
    rfl
  have hreg2 : stL.s.registered = true := by
    rw [hLreg, hAreg]
    exact hreg
  have Psnap : PBgood [Eff.snap "active" (activate s).registered,
      Eff.updateRoomStatus "active"] := by
    intro seen
    simp [pbCheck]
  refine ⟨?_, ?_, ?_, ?_, ?_, ?_, ?_⟩
  · exact PBgood_append (PBgood_append (PBgood_append Psnap pA) pL)
      (finalize_PB env settings stL.s)
  · rw [scCount_append, scCount_append, scCount_append,
      scCount_of_loopEff lA, scCount_of_loopEff lL, ← hsid,
      finalize_scCount env settings stL.s]
    simp [scCount]
  · rw [popCount_append, popCount_append, popCount_append,
      popCount_of_loopEff lA, popCount_of_loopEff lL, ← hcode,
      finalize_popCount env settings stL.s]
    simp [popCount]
  · refine SnapsOK_append (SnapsOK_append (SnapsOK_append ?_
      (SnapsOK_of_loopEff lA)) (SnapsOK_of_loopEff lL)) ?_
    · intro stt reg hmem hs
      simp only [List.mem_cons, List.not_mem_nil, or_false] at hmem
      rcases hmem with h | h
      · cases h
        exact hreg
      · cases h
    · intro stt reg hmem hs
      rcases finalize_snaps env settings stL.s stt reg hmem with ⟨_, h2⟩ | h1
      · rw [h2]
        exact hreg2
      · subst h1
        rcases hs with h | h | h <;> simp at h
  · intro h
    exact finalize_SeqInv env settings stL.s (qL (qA h))
  · exact (finalize_fields env settings stL.s).1
  · exact (finalize_fields env settings stL.s).2.1

theorem startAndRun_some {env : Env} {sched : Nat → List Op} {settings : Settings}
    {s s' : Orch} {tr : List Eff}
    (h : startAndRun env sched settings s = some (s', tr)) :
    s.status = "waiting" ∧
    s' = (run_loop env sched settings { s with registered := true }).1 ∧
    tr = [Eff.snap s.status s.registered, Eff.snap s.status true]
      ++ (run_loop env sched settings { s with registered := true }).2 := by
  unfold startAndRun start at h
  split at h
  · exact absurd h (by simp)
  · next s1 h2 =>
      split at h2
      · exact absurd h2 (by simp)
      · next h3 =>
          rw [not_not] at h3
          injection h2 with h4
          subst h4
          simp only [Option.some.injEq, Prod.mk.injEq] at h
          exact ⟨h3, h.1.symm, h.2.symm⟩



/-- **C1** (amended): in every modelled meeting run, every `meeting_message`
event delivered on the live broadcast topic, **except** the external-agent
timeout notice (which `_run_external_turn` appends with `db=None`), is
preceded in the effect order by the INSERT of the same message — same
content and same sequence number — into `meeting_messages`. -/
theorem C1_theorem (env : Env) (sched : Nat → List Op) (settings : Settings)
    (s s' : Orch) (tr : List Eff)
    (h : startAndRun env sched settings s = some (s', tr)) :
    pbCheck [] tr = true := by
  obtain ⟨hw, hs', htr⟩ := startAndRun_some h
  subst htr
  have M := run_loop_main env sched settings { s with registered := true } rfl
  have P2 : PBgood [Eff.snap s.status s.registered, Eff.snap s.status true] := by
    intro seen
    simp [pbCheck]
  exact PBgood_append P2 M.1 []

def wEnv : Env :=
  { ai := fun _ => Except.ok "[PASS]", ext := fun _ => none,
    primary_interpretation := none, interpretations_count := 0 }

def wSched : Nat → List Op := fun _ => []

def wSettings : Settings := { auto_interpret := false, auto_post_summaries := false }

def wOrch : Orch :=
  Orch.init "room-1" "ROAD-0612" "sess-1" "Roadmap" "" [⟨"Ana", "internal"⟩] 0 3 "Host"

theorem C1_witness :
    pbCheck [] ((startAndRun wEnv wSched wSettings wOrch).getD (wOrch, [])).2 = true :=
  C1_theorem wEnv wSched wSettings wOrch _ _ rfl


/-- **C2** (amended): for a freshly constructed meeting, the **in-memory**
message log at the end of any modelled run carries exactly the sequence
numbers `1, 2, …, N` (`N` = final counter) in order — no gaps, no
duplicates — and every `_add_message` append increments the counter by
exactly one and stamps the new message with the incremented value.  (The
**persisted** rows are only those appends given a db handle; the
external-timeout notice is skipped, so the persisted rows may have gaps —
see the counterexample.) -/
theorem C2_theorem (env : Env) (sched : Nat → List Op) (settings : Settings)
    (s s' : Orch) (tr : List Eff)
    (h0 : s.messages = []) (h1 : s.sequence = 0)
    (h : startAndRun env sched settings s = some (s', tr)) :
    s'.messages.map Message.sequence_number = (List.range s'.sequence).map (· + 1) ∧
    (∀ (t : Orch) (n ty mt c ct : String) (withDb : Bool),
      (add_message t n ty mt c withDb ct).1.sequence = t.sequence + 1 ∧
      (add_message t n ty mt c withDb ct).1.messages
        = t.messages ++ [(⟨n, ty, mt, c, ct, t.sequence + 1⟩ : Message)]) := by
  obtain ⟨hw, hs', htr⟩ := startAndRun_some h
  have M := run_loop_main env sched settings { s with registered := true } rfl
  constructor
  · have hSeq : SeqInv { s with registered := true } := by
      simp [SeqInv, h0, h1]
    have := M.2.2.2.2.1 hSeq
    rw [hs']
    exact this
  · intro t n ty mt c ct withDb
    exact ⟨rfl, rfl⟩

theorem C2_witness :
    ((startAndRun wEnv wSched wSettings wOrch).getD (wOrch, [])).1.messages.map
        Message.sequence_number
      = (List.range ((startAndRun wEnv wSched wSettings wOrch).getD
          (wOrch, [])).1.sequence).map (· + 1) :=
  (C2_theorem wEnv wSched wSettings wOrch _ _ rfl rfl rfl).1

/-- **C3** (amended): every modelled meeting run executes the finalizer
exactly once: its trace removes the meeting's code from the registry
exactly once and inserts exactly one `session.complete` event row for the
meeting's session id, and the final state is unregistered and `closed`.
(`agent_analyze` can insert *further* `session.complete` rows for the same
session id afterwards — see the counterexample — so "exactly one row is
ever inserted" fails.) -/
theorem C3_theorem (env : Env) (sched : Nat → List Op) (settings : Settings)
    (s s' : Orch) (tr : List Eff)
    (h : startAndRun env sched settings s = some (s', tr)) :
    scCount tr s.session_id = 1 ∧ popCount tr s.room_code = 1 ∧
    s'.registered = false ∧ s'.status = "closed" := by
  obtain ⟨hw, hs', htr⟩ := startAndRun_some h
  subst htr
  have M := run_loop_main env sched settings { s with registered := true } rfl
  refine ⟨?_, ?_, ?_, ?_⟩
  · rw [scCount_append]
    have h2 := M.2.1
    rw [show ({ s with registered := true } : Orch).session_id = s.session_id from rfl] at h2
    rw [h2]
    simp [scCount]
  · rw [popCount_append]
    have h2 := M.2.2.1
    rw [show ({ s with registered := true } : Orch).room_code = s.room_code from rfl] at h2
    rw [h2]
    simp [popCount]
  · rw [hs']
    exact M.2.2.2.2.2.1
  · rw [hs']
    exact M.2.2.2.2.2.2

theorem C3_witness :
    scCount ((startAndRun wEnv wSched wSettings wOrch).getD (wOrch, [])).2
        wOrch.session_id = 1 :=
  (C3_theorem wEnv wSched wSettings wOrch _ _ rfl).1

/-- **C7** (amended): the forward direction of the claim holds — whenever a
modelled run's instrumentation records the meeting in state `active`,
`paused` or `processing`, the meeting's code is in the active-meetings
registry; and `pause`/`resume` preserve this.  The converse fails: the
meeting is registered while still `waiting` (between `start()` and the
loop task's first step) and while already `closed` (until the finalizer's
final registry pop) — see the counterexample. -/
theorem C7_theorem (env : Env) (sched : Nat → List Op) (settings : Settings)
    (s s' : Orch) (tr : List Eff)
    (h : startAndRun env sched settings s = some (s', tr)) :
    SnapsOK tr ∧
    (∀ t : Orch,
      ((t.status = "active" ∨ t.status = "paused" ∨ t.status = "processing") →
        t.registered = true) →
      (((pause t).status = "active" ∨ (pause t).status = "paused" ∨
          (pause t).status = "processing") → (pause t).registered = true) ∧
      (((resume t).status = "active" ∨ (resume t).status = "paused" ∨
          (resume t).status = "processing") → (resume t).registered = true)) := by
  obtain ⟨hw, hs', htr⟩ := startAndRun_some h
  subst htr
  have M := run_loop_main env sched settings { s with registered := true } rfl
  constructor
  · refine SnapsOK_append ?_ M.2.2.2.1
    intro stt reg hmem hlive
    simp only [List.mem_cons, List.not_mem_nil, or_false, Eff.snap.injEq] at hmem
    rcases hmem with ⟨h1, h2⟩ | ⟨h1, h2⟩ <;>
      (rw [h1, hw] at hlive
       rcases hlive with h3 | h3 | h3 <;> simp at h3)
  · intro t ht
    constructor
    · unfold pause
      split
      · intro _
        exact ht (Or.inl (by assumption))
      · exact ht
    · unfold resume
      split
      · intro _
        exact ht (Or.inr (Or.inl (by assumption)))
      · exact ht

theorem C7_witness :
    SnapsOK ((startAndRun wEnv wSched wSettings wOrch).getD (wOrch, [])).2 :=
  (C7_theorem wEnv wSched wSettings wOrch _ _ rfl).1


/-! ## Concrete runs used by the counterexamples -/

def cEnvTimeout : Env :=
  { ai := fun _ => Except.ok "[PASS]", ext := fun _ => none,
    primary_interpretation := none, interpretations_count := 0 }

def cOrchExt : Orch :=
  Orch.init "room-2" "EXTR-0613" "sess-2" "Planning" "" [⟨"Remo", "external"⟩] 0 5 "Host"

/-- The trace of a meeting with one external agent that always times out. -/
def cTraceExt : List Eff :=
  ((startAndRun cEnvTimeout wSched wSettings cOrchExt).getD (cOrchExt, [])).2

def cTimeoutMsg : Message :=
  { sender_name := "System", sender_type := "system", message_type := "status",
    content := "Remo timed out (30s). Skipping turn.", content_type := "text/plain",
    sequence_number := 2 }

/-- The sequence numbers of the rows INSERTed into `meeting_messages`. -/
def persistedSeqs (t : List Eff) : List Nat :=
  t.filterMap fun e =>
    match e with
    | Eff.persistMessage m => some m.sequence_number
    | _ => none

/-- **C1** counterexample: in the all-timeout meeting, the external-agent
timeout notice (sequence 2) is delivered on the live broadcast topic as a
`meeting_message`, but **no** persisted row has its content and sequence
number — `_run_external_turn` appends it with `db=None`, so it is
broadcast without ever being persisted. -/
theorem C1_counterexample :
    Eff.broadcast (BMsg.meetingMessage cTimeoutMsg) ∈ cTraceExt ∧
    cTraceExt.all (fun e =>
      match e with
      | Eff.persistMessage m =>
          !(decide (m.content = cTimeoutMsg.content) &&
            decide (m.sequence_number = cTimeoutMsg.sequence_number))
      | _ => true) = true := by
  decide

/-- **C2** counterexample: in the all-timeout meeting, the in-memory log is
dense (1..5) but the persisted `meeting_messages` rows carry sequence
numbers `[1, 4, 5]` — the two timeout notices (2 and 3) consumed sequence
numbers without being persisted, so the persisted rows have gaps. -/
theorem C2_counterexample :
    ((startAndRun cEnvTimeout wSched wSettings cOrchExt).getD
        (cOrchExt, [])).1.messages.map Message.sequence_number = [1, 2, 3, 4, 5] ∧
    persistedSeqs cTraceExt = [1, 4, 5] ∧
    (2 : Nat) ∉ persistedSeqs cTraceExt ∧ (4 : Nat) ∈ persistedSeqs cTraceExt := by
  decide

/-- **C3** counterexample: after a finalized meeting run (whose trace holds
exactly one `session.complete` insert for the session), a successful
`agent_analyze` call on the same session inserts a second
`session.complete` row for the same session id, so "exactly one
`session.complete` event row is ever inserted" fails. -/
theorem C3_counterexample :
    (agent_analyze (some (some "t")) ["sock-1"] "" 1 "sess-1").toOption
      = some [Eff.insertSessionComplete "sess-1" 1] ∧
    scCount (((startAndRun wEnv wSched wSettings wOrch).getD (wOrch, [])).2
        ++ [Eff.insertSessionComplete "sess-1" 1]) "sess-1" = 2 := by
  decide

def c4Sched : Nat → List Op :=
  fun k => if k = 1 then [Op.directive "Focus on budget" "Host"] else []

def c4Orch : Orch :=
  Orch.init "room-4" "DIRC-0614" "sess-4" "Budget" "" [⟨"Ana", "internal"⟩] 0 5 "Host"

def c4Trace : List Eff :=
  ((startAndRun wEnv c4Sched wSettings c4Orch).getD (c4Orch, [])).2

def c4DirMsg : Message :=
  { sender_name := "Host", sender_type := "human", message_type := "directive",
    content := "Focus on budget", content_type := "text/plain", sequence_number := 2 }

def c4IdleMsg : Message :=
  { sender_name := "System", sender_type := "system", message_type := "status",
    content := "All agents have passed. Meeting ending due to idle.",
    content_type := "text/plain", sequence_number := 3 }

/-- The effects strictly between the first occurrence of `a` and the first
following occurrence of `b`. -/
def effsBetween (t : List Eff) (a b : Eff) : List Eff :=
  ((t.dropWhile (fun e => !(e = a))).drop 1).takeWhile (fun e => !(e = b))

/-- **C4** counterexample: one internal agent that always passes, with a
host directive arriving before the second turn.  The pass threshold is
`2 × 1 = 2`; the counter is already 1 when the directive lands, and only
**one** agent turn (one `agent_thinking` broadcast) separates the
directive from the idle-termination Status message.  If a host directive
reset the consecutive-pass counter — as the claim states — the counter
would be 1 < 2 at the end of that round and no idle Status could be
emitted yet; the code emits it, because `add_directive` never touches the
loop-local `consecutive_passes`. -/
theorem C4_counterexample :
    ((startAndRun wEnv c4Sched wSettings c4Orch).getD (c4Orch, [])).1.messages.map
        (fun m => (m.sequence_number, m.message_type)) =
      [(1, "status"), (2, "directive"), (3, "status"), (4, "status")] ∧
    Eff.broadcast (BMsg.meetingMessage c4DirMsg) ∈ c4Trace ∧
    Eff.broadcast (BMsg.meetingMessage c4IdleMsg) ∈ c4Trace ∧
    (effsBetween c4Trace (Eff.broadcast (BMsg.meetingMessage c4DirMsg))
        (Eff.broadcast (BMsg.meetingMessage c4IdleMsg))).countP
      (fun e => match e with
        | Eff.broadcast (BMsg.agentThinking _) => true
        | _ => false) = 1 ∧
    c4Orch.agents.length * 2 = 2 := by
  decide

def wTrace : List Eff :=
  ((startAndRun wEnv wSched wSettings wOrch).getD (wOrch, [])).2

/-- **C7** counterexample: the instrumented run records the meeting as
registered while its state is still `waiting` (after `start()` registers
it, before the loop task first runs) and while its state is already
`closed` (inside `_finalize`, before the final registry pop) — both
violating "registered iff state ∈ {Active, Paused, Processing}". -/
theorem C7_counterexample :
    Eff.snap "waiting" true ∈ wTrace ∧ Eff.snap "closed" true ∈ wTrace ∧
    ¬("waiting" = "active" ∨ "waiting" = "paused" ∨ "waiting" = "processing") ∧
    ¬("closed" = "active" ∨ "closed" = "paused" ∨ "closed" = "processing") := by
  decide


/-- **C4** (amended): when a round ends with no agent having responded and
the loop-local `consecutive_passes` counter has reached the threshold
(`2 × participant_count` at loop entry), the scheduler appends the Status
message "All agents have passed. Meeting ending due to idle." and breaks
out of the round loop.  The counter is reset by drained human messages
and by agent responses; a host directive does **not** reset it —
`add_directive` neither touches the loop-local counter (a pass still
continues with the pre-turn counter plus one, whatever ops the schedule
delivered) nor enqueues anything into the human-message queue. -/
theorem C4_theorem (env : Env) (sched : Nat → List Op) (maxPasses : Nat)
    (st st1 : LoopSt) (t : List Eff) (agent : Agent) (resp : String) :
    (st.s.stop_requested = false →
     forTurns env sched
        (build_agent_order (bumpRound st.s).agents
          (roundMentions (bumpRound st.s).agents (bumpRound st.s).messages))
        ⟨bumpRound st.s, st.passes, st.turnIdx⟩ false = ((st1, false), t) →
     maxPasses ≤ st1.passes →
     doRound env sched maxPasses st =
       ((⟨(add_message st1.s "System" "system" "status"
             "All agents have passed. Meeting ending due to idle." true "text/plain").1,
           st1.passes, st1.turnIdx⟩, false),
         t ++ (add_message st1.s "System" "system" "status"
             "All agents have passed. Meeting ending due to idle." true "text/plain").2))
  ∧ (∀ (s : Orch) (q : List HumanMsg) (p : Nat),
      (drainQueue s q p).2.1 = if q = [] then p else 0)
  ∧ (st.s.stop_requested = false →
     (applyOps st.s (sched st.turnIdx)).1.stop_requested = false →
     (run_agent_turn env st.turnIdx
        (drainHumans (applyOps st.s (sched st.turnIdx)).1 st.passes).1 agent).2.1
       = some resp →
     (forTurns env sched [agent] st false).1.1.passes = 0)
  ∧ (st.s.stop_requested = false →
     (applyOps st.s (sched st.turnIdx)).1.stop_requested = false →
     (run_agent_turn env st.turnIdx
        (drainHumans (applyOps st.s (sched st.turnIdx)).1 st.passes).1 agent).2.1 = none →
     (forTurns env sched [agent] st false).1.1.passes
       = (drainHumans (applyOps st.s (sched st.turnIdx)).1 st.passes).2.1 + 1)
  ∧ (∀ (s : Orch) (text fn : String),
      (add_directive s text fn).1.human_message_queue = s.human_message_queue) := by
  refine ⟨?_, ?_, ?_, ?_, ?_⟩
  · intro hstop hrun hthr
    rw [doRound, hstop]
    rw [if_neg Bool.false_ne_true]
    dsimp only
    rw [hrun]
    dsimp only
    rw [if_pos ⟨rfl, hthr⟩]
  · intro s q p
    induction q generalizing s p with
    | nil => rfl
    | cons hm rest ih => simp [drainQueue, ih]
  · intro hstop hops hresp
    rw [forTurns, hstop]
    rw [if_neg Bool.false_ne_true]
    rcases hA : applyOps st.s (sched st.turnIdx) with ⟨sA, eA⟩
    rw [hA] at hops hresp
    dsimp only at hops hresp ⊢
    rw [hops, if_neg Bool.false_ne_true]
    rcases hD : drainHumans sA st.passes with ⟨sD, pD, eD⟩
    rw [hD] at hresp
    dsimp only at hresp ⊢
    rcases hT : run_agent_turn env st.turnIdx sD agent with ⟨sT, oT, eT⟩
    rw [hT] at hresp
    dsimp only at hresp ⊢
    subst hresp
    rfl
  · intro hstop hops hresp
    rw [forTurns, hstop]
    rw [if_neg Bool.false_ne_true]
    rcases hA : applyOps st.s (sched st.turnIdx) with ⟨sA, eA⟩
    rw [hA] at hops hresp
    dsimp only at hops hresp ⊢
    rw [hops, if_neg Bool.false_ne_true]
    rcases hD : drainHumans sA st.passes with ⟨sD, pD, eD⟩
    rw [hD] at hresp
    dsimp only at hresp ⊢
    rcases hT : run_agent_turn env st.turnIdx sD agent with ⟨sT, oT, eT⟩
    rw [hT] at hresp
    dsimp only at hresp ⊢
    subst hresp
    rfl
  · intro s text fn
    rfl

theorem C4_witness :
    doRound wEnv wSched 2 ⟨wOrch, 1, 0⟩ =
      ((⟨(add_message { wOrch with current_round := 1 } "System" "system" "status"
            "All agents have passed. Meeting ending due to idle." true "text/plain").1,
          2, 1⟩, false),
        [Eff.broadcast (BMsg.agentThinking "Ana"), Eff.broadcast (BMsg.agentDone "Ana")]
          ++ (add_message { wOrch with current_round := 1 } "System" "system" "status"
            "All agents have passed. Meeting ending due to idle." true "text/plain").2) :=
  (C4_theorem wEnv wSched 2 ⟨wOrch, 1, 0⟩
      ⟨{ wOrch with current_round := 1 }, 2, 1⟩
      [Eff.broadcast (BMsg.agentThinking "Ana"), Eff.broadcast (BMsg.agentDone "Ana")]
      ⟨"Ana", "internal"⟩ "x").1 rfl (by decide) (by decide)


def c5Agents : List Agent :=
  [⟨"Ada", "internal"⟩, ⟨"Bo", "internal"⟩, ⟨"Cy", "internal"⟩]

/-- **C5** counterexample: with participants `[Ada, Bo, Cy]` and the recent
messages mentioning `@Cy` then `@Bo` (in that in-message order), the
round order produced by `_build_agent_order` is `[Bo, Cy, Ada]` — the
mentioned participants keep their **participant-list** order — while the
spec's sentence ("mentioned participants ordered by in-message mention
order") demands `[Cy, Bo, Ada]`. -/
theorem C5_counterexample :
    parse_mentions c5Agents "@Cy then @Bo please" = ["Cy", "Bo"] ∧
    build_agent_order c5Agents ["Cy", "Bo"]
      = [⟨"Bo", "internal"⟩, ⟨"Cy", "internal"⟩, ⟨"Ada", "internal"⟩] ∧
    spec_mention_order c5Agents ["Cy", "Bo"]
      = [⟨"Cy", "internal"⟩, ⟨"Bo", "internal"⟩, ⟨"Ada", "internal"⟩] ∧
    build_agent_order c5Agents ["Cy", "Bo"]
      ≠ spec_mention_order c5Agents ["Cy", "Bo"] := by
  decide

/-- **C5** (amended): for a nonempty mention list, `_build_agent_order`
puts the mentioned participants first and the rest after, with **both**
groups keeping the relative order of the participant list (each group is
a sublist of `self.agents`; the mention order within the recent messages
is not used); the result is a permutation of the participant list, and an
empty mention list leaves the order unchanged. -/
theorem C5_theorem (agents : List Agent) (mentioned : List String)
    (h : mentioned ≠ []) :
    build_agent_order agents mentioned
      = agents.filter (fun a => mentioned.contains a.name)
        ++ agents.filter (fun a => !mentioned.contains a.name) ∧
    List.Sublist (agents.filter (fun a => mentioned.contains a.name)) agents ∧
    List.Sublist (agents.filter (fun a => !mentioned.contains a.name)) agents ∧
    List.Perm (build_agent_order agents mentioned) agents ∧
    build_agent_order agents [] = agents := by
  have hne : mentioned.isEmpty = false := by
    cases mentioned with
    | nil => exact absurd rfl h
    | cons a t => rfl
  refine ⟨?_, List.filter_sublist agents, List.filter_sublist agents, ?_, rfl⟩
  · rw [build_agent_order, hne, if_neg Bool.false_ne_true]
  · rw [build_agent_order, hne, if_neg Bool.false_ne_true]
    exact List.filter_append_perm _ agents

theorem C5_witness :
    build_agent_order c5Agents ["Cy", "Bo"]
      = c5Agents.filter (fun a => (["Cy", "Bo"] : List String).contains a.name)
        ++ c5Agents.filter (fun a => !(["Cy", "Bo"] : List String).contains a.name) :=
  (C5_theorem c5Agents ["Cy", "Bo"] (by decide)).1

/-- **C6** counterexample: the response `"[ARTIFACT] hello"` begins with
the literal tag, and the appended artifact entry's content is `"hello"` —
the code strips the tag **and** the surrounding whitespace
(`response[len("[ARTIFACT]"):].strip()`), while the claim's
tag-stripped-only content would be `" hello"`. -/
theorem C6_counterexample :
    (append_agent_response wOrch "Ana" "[ARTIFACT] hello").1.messages.map
        Message.content = ["hello"] ∧
    pyDrop "[ARTIFACT] hello" "[ARTIFACT]".length = " hello" ∧
    ("hello" : String) ≠ " hello" := by
  decide

/-- **C6** (amended): a non-pass response beginning with the literal
`[ARTIFACT]` is appended as an `artifact` entry with content-type
`text/markdown` whose content is the tag-stripped remainder **with
leading and trailing whitespace removed** (`.strip()`); every other
non-pass response is appended as a `message` entry with content-type
`text/plain` and unmodified content.  Both branches persist the entry and
then broadcast it. -/
theorem C6_theorem (s : Orch) (n response : String) :
    (pyStartsWith response "[ARTIFACT]" = true →
      (append_agent_response s n response).1.messages
        = s.messages ++ [(⟨n, "agent", "artifact",
            pyStrip (pyDrop response "[ARTIFACT]".length), "text/markdown",
            s.sequence + 1⟩ : Message)] ∧
      (append_agent_response s n response).2
        = [Eff.persistMessage (⟨n, "agent", "artifact",
              pyStrip (pyDrop response "[ARTIFACT]".length), "text/markdown",
              s.sequence + 1⟩ : Message),
           Eff.broadcast (BMsg.meetingMessage (⟨n, "agent", "artifact",
              pyStrip (pyDrop response "[ARTIFACT]".length), "text/markdown",
              s.sequence + 1⟩ : Message))]) ∧
    (pyStartsWith response "[ARTIFACT]" = false →
      (append_agent_response s n response).1.messages
        = s.messages ++ [(⟨n, "agent", "message", response, "text/plain",
            s.sequence + 1⟩ : Message)] ∧
      (append_agent_response s n response).2
        = [Eff.persistMessage (⟨n, "agent", "message", response, "text/plain",
              s.sequence + 1⟩ : Message),
           Eff.broadcast (BMsg.meetingMessage (⟨n, "agent", "message", response,
              "text/plain", s.sequence + 1⟩ : Message))]) := by
  constructor
  · intro h
    rw [append_agent_response, h, if_pos rfl]
    exact ⟨rfl, rfl⟩
  · intro h
    rw [append_agent_response, h, if_neg Bool.false_ne_true]
    exact ⟨rfl, rfl⟩

theorem C6_witness :
    (append_agent_response wOrch "Ana" "[ARTIFACT] hello").1.messages
      = wOrch.messages ++ [(⟨"Ana", "agent", "artifact",
          pyStrip (pyDrop "[ARTIFACT] hello" "[ARTIFACT]".length), "text/markdown",
          wOrch.sequence + 1⟩ : Message)] :=
  ((C6_theorem wOrch "Ana" "[ARTIFACT] hello").1 (by decide)).1

def c10Env : Env :=
  { ai := fun _ => Except.error "", ext := fun _ => some " [PASS] ",
    primary_interpretation := none, interpretations_count := 0 }

/-- **C10** counterexample: submitting the non-literal string `" [PASS] "`
through the respond endpoint is accepted (the pending future is resolved
with it), and the external turn treats it as a pass —
`_run_external_turn` compares `response.strip()`, so the literal
`"[PASS]"` is **not** the only string an external agent can pass with. -/
theorem C10_counterexample :
    (agent_meeting_respond (some [("Remo", (⟨false, none⟩ : PendingFuture))])
        (some "Remo") "Remo" (some " [PASS] ")).1
      = RespondOutcome.submitted "Remo" ∧
    (agent_meeting_respond (some [("Remo", (⟨false, none⟩ : PendingFuture))])
        (some "Remo") "Remo" (some " [PASS] ")).2
      = some [("Remo", (⟨true, some " [PASS] "⟩ : PendingFuture))] ∧
    (run_external_turn c10Env 0 wOrch ⟨"Remo", "external"⟩).2.1 = none ∧
    (" [PASS] " : String) ≠ "[PASS]" := by
  decide

/-- **C10** (amended): a missing or empty `response` body field is
rejected with 400 ("Response is required") before the pending-promise
lookup, leaving the future table untouched; a resolved future yields a
pass exactly when the resolution is empty or **strips** to `"[PASS]"`;
and an accepted submission always carries a nonempty response and
resolves the pending future with it — so through this endpoint an
external agent passes its turn exactly by submitting a nonempty string
whose strip is `"[PASS]"` (or by letting the timeout elapse). -/
theorem C10_theorem (table : List (String × PendingFuture))
    (bn : Option String) (kn : String) (br : Option String) (a : String)
    (env : Env) (k : Nat) (s : Orch) (agent : Agent) (r : String) :
    (br.getD "" = "" →
      agent_meeting_respond (some table) bn kn br
        = (RespondOutcome.badRequest "Response is required", some table)) ∧
    (env.ext k = some r →
      ((run_external_turn env k s agent).2.1 = none
        ↔ (r = "" ∨ pyStrip r = "[PASS]"))) ∧
    ((agent_meeting_respond (some table) bn kn br).1
        = RespondOutcome.submitted a →
      br.getD "" ≠ "" ∧
      (submit_external_response table a (br.getD "")).1 = true ∧
      (agent_meeting_respond (some table) bn kn br).2
        = some (submit_external_response table a (br.getD "")).2) := by
  refine ⟨?_, ?_, ?_⟩
  · intro h
    rw [agent_meeting_respond]
    dsimp only
    rw [if_pos h]
  · intro h
    rw [run_external_turn, h]
    dsimp only
    split_ifs with hc
    · simp only [iff_false, reduceCtorEq, false_iff]
      push_neg
      exact hc
    · push_neg at hc
      simp only [true_iff]
      by_cases h0 : r = ""
      · exact Or.inl h0
      · exact Or.inr (hc h0)
  · intro h
    by_cases hr : br.getD "" = ""
    · exfalso
      rw [agent_meeting_respond] at h
      dsimp only at h
      rw [if_pos hr] at h
      exact RespondOutcome.noConfusion h
    · rw [agent_meeting_respond] at h
      dsimp only at h
      rw [if_neg hr] at h
      cases hC : (submit_external_response table (respond_agent_name bn kn) (br.getD "")).1 with
      | false =>
          rw [hC, if_neg Bool.false_ne_true] at h
          exact absurd h (by simp)
      | true =>
          rw [hC, if_pos rfl] at h
          dsimp only at h
          injection h with h'
          subst h'
          refine ⟨hr, hC, ?_⟩
          rw [agent_meeting_respond]
          dsimp only
          rw [if_neg hr, hC, if_pos rfl]

theorem C10_witness :
    agent_meeting_respond (some [("Remo", (⟨false, none⟩ : PendingFuture))])
        none "Remo" (some "")
      = (RespondOutcome.badRequest "Response is required",
         some [("Remo", (⟨false, none⟩ : PendingFuture))]) :=
  (C10_theorem [("Remo", ⟨false, none⟩)] none "Remo" (some "") "x"
      c10Env 0 wOrch ⟨"Remo", "external"⟩ " [PASS] ").1 rfl

deriving instance DecidableEq for Except

def c8Row : ApiKeyRow :=
  { id := "k1", name := "Ana", key_hash := sha256hex "scribe_sk_abc",
    scopes := some "sessions:read", created_at := "t0", last_used_at := none }

set_option maxRecDepth 10000 in
/-- **C8** counterexample: a credential with the explicit scope set
`{sessions:read}` used on an operation requiring `wall:write` is rejected
with 403, but the rejection is **not** mutation-free: `verify_api_key`
commits the `last_used_at` update before the scope check runs, so the
stored row has changed. -/
theorem C8_counterexample :
    (require_scope "wall:write" "Bearer scribe_sk_abc" "t1" [c8Row]).1
      = Except.error (403, "API key missing required scope: wall:write") ∧
    (require_scope "wall:write" "Bearer scribe_sk_abc" "t1" [c8Row]).2
      = [{ c8Row with last_used_at := some "t1" }] ∧
    ({ c8Row with last_used_at := some "t1" } : ApiKeyRow) ≠ c8Row := by
  decide

/-- **C8** (amended): for every request whose well-formed `scribe_sk_`
token hashes to a stored row, the scope check succeeds iff the row's
scopes column is NULL (such keys pass every check) or the parsed explicit
scope set contains the required scope; a failing check rejects with 403
and the guarded handler body never runs — but the rejection is not
mutation-free: the row's `last_used_at` column has already been updated
by `verify_api_key`. -/
theorem C8_theorem (scope auth now : String) (db : List ApiKeyRow) (row : ApiKeyRow)
    (h1 : pyStartsWith auth "Bearer " = true)
    (h2 : pyStartsWith (pyDrop auth 7) "scribe_sk_" = true)
    (h3 : db.find? (fun r => r.key_hash = sha256hex (pyDrop auth 7)) = some row) :
    ((∃ c, (require_scope scope auth now db).1 = Except.ok c)
        ↔ (row.scopes = none ∨ (parse_scopes row.scopes).contains scope = true)) ∧
    (require_scope scope auth now db).2
      = db.map (fun r =>
          if r.id = row.id then { r with last_used_at := some now } else r) ∧
    (row.scopes ≠ none → (parse_scopes row.scopes).contains scope = false →
      require_scope scope auth now db
        = (Except.error (403, s!"API key missing required scope: {scope}"),
           db.map (fun r =>
             if r.id = row.id then { r with last_used_at := some now } else r))) ∧
    (∀ (handler : List ApiKeyRow → List ApiKeyRow × Nat),
      row.scopes ≠ none → (parse_scopes row.scopes).contains scope = false →
      guarded_endpoint scope auth now db handler
        = (Except.error (403, s!"API key missing required scope: {scope}"),
           db.map (fun r =>
             if r.id = row.id then { r with last_used_at := some now } else r))) := by
  have hv : verify_api_key auth now db
      = (Except.ok
          ({ id := row.id, name := row.name, key_hash := row.key_hash,
             created_at := row.created_at, last_used_at := row.last_used_at,
             scopes := parse_scopes row.scopes,
             has_all_scopes := row.scopes.isNone } : Credential),
         db.map fun r =>
           if r.id = row.id then { r with last_used_at := some now } else r) := by
    rw [verify_api_key, h1]
    rw [if_neg (not_not_intro rfl)]
    dsimp only
    rw [h2, if_neg (not_not_intro rfl)]
    rw [h3]
  have hq : require_scope scope auth now db
      = (if row.scopes.isNone then
           (Except.ok
             ({ id := row.id, name := row.name, key_hash := row.key_hash,
                created_at := row.created_at, last_used_at := row.last_used_at,
                scopes := parse_scopes row.scopes,
                has_all_scopes := row.scopes.isNone } : Credential),
            db.map fun r =>
              if r.id = row.id then { r with last_used_at := some now } else r)
         else if (parse_scopes row.scopes).contains scope then
           (Except.ok
             ({ id := row.id, name := row.name, key_hash := row.key_hash,
                created_at := row.created_at, last_used_at := row.last_used_at,
                scopes := parse_scopes row.scopes,
                has_all_scopes := row.scopes.isNone } : Credential),
            db.map fun r =>
              if r.id = row.id then { r with last_used_at := some now } else r)
         else
           (Except.error (403, s!"API key missing required scope: {scope}"),
            db.map fun r =>
              if r.id = row.id then { r with last_used_at := some now } else r)) := by
    rw [require_scope, hv]
  have h403 : row.scopes ≠ none → (parse_scopes row.scopes).contains scope = false →
      require_scope scope auth now db
        = (Except.error (403, s!"API key missing required scope: {scope}"),
           db.map (fun r =>
             if r.id = row.id then { r with last_used_at := some now } else r)) := by
    intro hns hc
    rw [hq]
    cases hs : row.scopes with
    | none => exact absurd hs hns
    | some sc =>
        simp only [Option.isNone_some, Bool.false_eq_true, if_false]
        rw [hs] at hc
        rw [hc, if_neg Bool.false_ne_true]
  refine ⟨?_, ?_, ?_, ?_⟩
  · rw [hq]
    cases hs : row.scopes with
    | none =>
        simp only [Option.isNone_none, if_pos rfl]
        constructor
        · intro _; simp
        · intro _; exact ⟨_, rfl⟩
    | some sc =>
        simp only [Option.isNone_some, Bool.false_eq_true, if_false]
        cases hc : (parse_scopes (some sc)).contains scope with
        | true =>
            rw [if_pos rfl]
            constructor
            · intro _; exact Or.inr rfl
            · intro _; exact ⟨_, rfl⟩
        | false =>
            rw [if_neg Bool.false_ne_true]
            constructor
            · rintro ⟨c, hcc⟩; exact absurd hcc (by simp)
            · rintro (h | h)
              · exact Option.noConfusion h
              · exact Bool.noConfusion h
  · rw [hq]
    split
    · rfl
    · split
      · rfl
      · rfl
  · exact h403
  · intro handler hns hc
    rw [guarded_endpoint, h403 hns hc]

set_option maxRecDepth 10000 in
theorem C8_witness :
    (require_scope "wall:write" "Bearer scribe_sk_abc" "t1" [c8Row]).2
      = [c8Row].map (fun r =>
          if r.id = c8Row.id then { r with last_used_at := some "t1" } else r) :=
  ( C8_theorem "wall:write" "Bearer scribe_sk_abc" "t1" [c8Row] c8Row
      (by decide) (by decide) (by decide)).2.1

theorem isPrefixOf_append_self (l₁ l₂ : List Char) : l₁.isPrefixOf (l₁ ++ l₂) = true := by
  induction l₁ with
  | nil => cases l₂ with
    | nil => rfl
    | cons b bs => rfl
  | cons c t ih => simp [List.isPrefixOf, ih]

theorem pyStartsWith_append (p s : String) : pyStartsWith (p ++ s) p = true := by
  rw [pyStartsWith, String.data_append]
  exact isPrefixOf_append_self p.data s.data

theorem pyDrop_bearer (s : String) : pyDrop ("Bearer " ++ s) 7 = s := by
  have h7 : "Bearer ".data.length = 7 := by decide
  rw [pyDrop, String.data_append, ← h7, List.drop_left]

theorem hexDigitChar_ne_s (n : Nat) : hexDigitChar n ≠ 's' := by
  have h16 : n % 16 < 16 := Nat.mod_lt _ (by omega)
  have hAll : ∀ k, k < 16 → hexDigitChar k ≠ 's' := by decide
  have hmm : hexDigitChar (n % 16) = hexDigitChar n := by
    rw [hexDigitChar, hexDigitChar, Nat.mod_mod_of_dvd _ (dvd_refl 16)]
  rw [← hmm]
  exact hAll _ h16

theorem sha256hex_ne_token (raw_rand : String) :
    sha256hex ("scribe_sk_" ++ raw_rand) ≠ "scribe_sk_" ++ raw_rand := by
  intro heq
  obtain ⟨x, l, hx⟩ : ∃ x l, (sha256hex ("scribe_sk_" ++ raw_rand)).data = hexDigitChar x :: l :=
    ⟨_, _, rfl⟩
  have hdata : (sha256hex ("scribe_sk_" ++ raw_rand)).data
      = ("scribe_sk_" ++ raw_rand).data := by rw [heq]
  rw [hx, String.data_append] at hdata
  have hscr : "scribe_sk_".data = 's' :: "cribe_sk_".data := by decide
  rw [hscr] at hdata
  have hhead : hexDigitChar x = 's' := by
    have := congrArg List.head? hdata
    simpa using this
  exact hexDigitChar_ne_s x hhead

/-- **C9** (confirmed): a token minted by `register_agent` for a nonblank
name — with a hash not already present (SHA-256 collision-freshness of
the random token) — is returned in plaintext exactly once, while only its
SHA-256 hex digest is stored (row fields: id, name, key_hash, NULL
scopes, created_at, NULL last_used_at); verifying `Bearer <token>`
succeeds against **any** table state in which the token's hash lookup
returns a row — whatever its `last_used_at`, so in particular after
earlier verifications have updated it — yielding the credential built
from that row (the minted row parses to every scope) and re-stamping only
`last_used_at`; concretely, verification succeeds on the
post-registration table and again on the table that first verification
itself mutated; the stored digest is never the plaintext token itself. -/
theorem C9_theorem (db : Db) (name key_id raw_rand post_id now now2 : String)
    (hname : pyStrip name ≠ "")
    (hfresh : ∀ r ∈ db.api_keys, r.key_hash ≠ sha256hex ("scribe_sk_" ++ raw_rand)) :
    (register_agent db (some name) key_id raw_rand post_id now).1
      = Except.ok (⟨"scribe_sk_" ++ raw_rand, key_id, pyStrip name, post_id⟩
          : RegisterResult) ∧
    (register_agent db (some name) key_id raw_rand post_id now).2.api_keys
      = db.api_keys ++ [(⟨key_id, pyStrip name,
          sha256hex ("scribe_sk_" ++ raw_rand), none, now, none⟩ : ApiKeyRow)] ∧
    (∀ (t : String) (db2 : List ApiKeyRow) (r : ApiKeyRow),
      db2.find? (fun x => x.key_hash = sha256hex ("scribe_sk_" ++ raw_rand))
        = some r →
      verify_api_key ("Bearer " ++ ("scribe_sk_" ++ raw_rand)) t db2
        = (Except.ok (⟨r.id, r.name, r.key_hash, r.created_at, r.last_used_at,
            parse_scopes r.scopes, r.scopes.isNone⟩ : Credential),
           db2.map fun x =>
             if x.id = r.id then { x with last_used_at := some t } else x)) ∧
    (verify_api_key ("Bearer " ++ ("scribe_sk_" ++ raw_rand)) now2
        (register_agent db (some name) key_id raw_rand post_id now).2.api_keys).1
      = Except.ok (⟨key_id, pyStrip name, sha256hex ("scribe_sk_" ++ raw_rand),
          now, none, ALL_SCOPES, true⟩ : Credential) ∧
    (∀ now3 : String,
      (verify_api_key ("Bearer " ++ ("scribe_sk_" ++ raw_rand)) now3
          (verify_api_key ("Bearer " ++ ("scribe_sk_" ++ raw_rand)) now2
            (register_agent db (some name) key_id raw_rand post_id now).2.api_keys).2).1
        = Except.ok (⟨key_id, pyStrip name, sha256hex ("scribe_sk_" ++ raw_rand),
            now, some now2, ALL_SCOPES, true⟩ : Credential)) ∧
    sha256hex ("scribe_sk_" ++ raw_rand) ≠ "scribe_sk_" ++ raw_rand := by
  have hreg : register_agent db (some name) key_id raw_rand post_id now
      = (Except.ok (⟨"scribe_sk_" ++ raw_rand, key_id, pyStrip name, post_id⟩
            : RegisterResult),
         ⟨db.api_keys ++ [(⟨key_id, pyStrip name,
            sha256hex ("scribe_sk_" ++ raw_rand), none, now, none⟩ : ApiKeyRow)],
          db.wall_posts ++ [(⟨post_id, pyStrip name, some key_id,
            pyStrip name ++ " has connected to EchoBridge!", "intro", now⟩
              : WallPost)]⟩) := by
    rw [register_agent]
    simp only [Option.getD_some]
    rw [if_neg hname]
  have hver : ∀ (t : String) (db2 : List ApiKeyRow) (r : ApiKeyRow),
      db2.find? (fun x => x.key_hash = sha256hex ("scribe_sk_" ++ raw_rand))
        = some r →
      verify_api_key ("Bearer " ++ ("scribe_sk_" ++ raw_rand)) t db2
        = (Except.ok (⟨r.id, r.name, r.key_hash, r.created_at, r.last_used_at,
            parse_scopes r.scopes, r.scopes.isNone⟩ : Credential),
           db2.map fun x =>
             if x.id = r.id then { x with last_used_at := some t } else x) := by
    intro t db2 r hfind
    rw [verify_api_key, pyStartsWith_append, if_neg (not_not_intro rfl)]
    dsimp only
    rw [pyDrop_bearer, pyStartsWith_append, if_neg (not_not_intro rfl), hfind]
  have hfind1 : (db.api_keys ++ [(⟨key_id, pyStrip name,
      sha256hex ("scribe_sk_" ++ raw_rand), none, now, none⟩ : ApiKeyRow)]).find?
        (fun x => x.key_hash = sha256hex ("scribe_sk_" ++ raw_rand))
      = some (⟨key_id, pyStrip name,
          sha256hex ("scribe_sk_" ++ raw_rand), none, now, none⟩ : ApiKeyRow) := by
    rw [List.find?_append]
    have h1 : db.api_keys.find?
        (fun x => x.key_hash = sha256hex ("scribe_sk_" ++ raw_rand)) = none := by
      rw [List.find?_eq_none]
      intro x hx
      simp only [decide_eq_true_eq]
      exact hfresh x hx
    rw [h1]
    simp [List.find?]
  refine ⟨by rw [hreg], by rw [hreg], hver, ?_, ?_, sha256hex_ne_token raw_rand⟩
  · rw [hreg]
    dsimp only
    rw [hver now2 _ _ hfind1]
    rfl
  · intro now3
    have hfind2 : ((db.api_keys ++ [(⟨key_id, pyStrip name,
        sha256hex ("scribe_sk_" ++ raw_rand), none, now, none⟩ : ApiKeyRow)]).map
          (fun x => if x.id = key_id
            then { x with last_used_at := some now2 } else x)).find?
          (fun x => x.key_hash = sha256hex ("scribe_sk_" ++ raw_rand))
        = some (⟨key_id, pyStrip name,
            sha256hex ("scribe_sk_" ++ raw_rand), none, now, some now2⟩
              : ApiKeyRow) := by
      rw [List.map_append, List.find?_append]
      have hnone : ((db.api_keys).map
          (fun x => if x.id = key_id
            then { x with last_used_at := some now2 } else x)).find?
            (fun x => x.key_hash = sha256hex ("scribe_sk_" ++ raw_rand)) = none := by
        rw [List.find?_eq_none]
        intro y hy
        obtain ⟨x, hx, rfl⟩ := List.mem_map.mp hy
        simp only [decide_eq_true_eq]
        by_cases hid : x.id = key_id
        · rw [if_pos hid]
          exact hfresh x hx
        · rw [if_neg hid]
          exact hfresh x hx
      rw [hnone]
      simp [List.find?]
    rw [hreg]
    dsimp only
    rw [hver now2 _ _ hfind1]
    dsimp only
    rw [hver now3 _ _ hfind2]
    rfl

theorem C9_witness :
    (verify_api_key ("Bearer " ++ ("scribe_sk_" ++ "abc")) "t2"
        (verify_api_key ("Bearer " ++ ("scribe_sk_" ++ "abc")) "t1"
          (register_agent ⟨[], []⟩ (some "Ana") "k1" "abc" "p1" "t0").2.api_keys).2).1
      = Except.ok (⟨"k1", pyStrip "Ana", sha256hex ("scribe_sk_" ++ "abc"),
          "t0", some "t1", ALL_SCOPES, true⟩ : Credential) :=
  (C9_theorem ⟨[], []⟩ "Ana" "k1" "abc" "p1" "t0" "t1" (by decide)
      (fun r hr => absurd hr (List.not_mem_nil r))).2.2.2.2.1 "t2"
end EchoBridge
